import Mathlib

/-!
A shallow embedding of the `ldlinkpython` client library (validators, the
shared HTTP dispatcher, the `ldpair` / `ldmatrix` endpoint operations, and
the two response-parsing modules `parsers.py` and `parsing.py`), together
with theorems settling the specification claims about it.

Machine strings are modelled as Lean `String` (a wrapper around
`List Char`); the Python string primitives used by the code
(`str.strip`, `str.split`, `str.splitlines`, `re.split` on a
character class) are defined below on `List Char`, following CPython
semantics for the ASCII inputs this library manipulates.
-/

set_option maxHeartbeats 1000000

/-- Python exception values raised by the embedded code (ValueError,
TypeError, RuntimeError, and the custom exception classes of
`ldlinkpython/exceptions.py`). -/
inductive PyErr where
  | valueError (msg : String)
  | typeError (msg : String)
  | runtimeError (msg : String)
  | validationError (msg : String)
  | tokenMissing (msg : String)
  | parseError (msg : String)
  | apiError (msg : String)
deriving DecidableEq

deriving instance DecidableEq for Except

/-- ASCII whitespace: the characters stripped by Python `str.strip()` and
matched by the regex class `\s` (for the ASCII data this library handles):
space, tab, LF, CR, vertical tab, form feed. -/
def wsChar (c : Char) : Bool :=
  c == ' ' || c == '\t' || c == '\n' || c == '\r' || c == '\u000b' || c == '\u000c'

/-- Python `str.strip()` on a character list: drop ASCII whitespace from
both ends. -/
def stripL (l : List Char) : List Char :=
  ((l.dropWhile wsChar).reverse.dropWhile wsChar).reverse

/-- Python `str.strip()`. -/
def pyStrip (s : String) : String := ⟨stripL s.data⟩

/-- Python `str.split(sep)` for a one-character separator: split at every
occurrence of `sep`, keeping empty pieces. -/
def splitOnChar (sep : Char) : List Char → List (List Char)
  | [] => [[]]
  | c :: t =>
    if c == sep then [] :: splitOnChar sep t
    else
      match splitOnChar sep t with
      | [] => [[c]]
      | h :: tl => (c :: h) :: tl

/-- `re.split` against the pattern `[C]+` for a character class `C` given
by the predicate `p`: split at every maximal run of class characters,
keeping the empty pieces that arise at the ends. -/
def splitRuns (p : Char → Bool) : List Char → List (List Char)
  | [] => [[]]
  | c :: t =>
    let r := splitRuns p t
    if p c then
      match t with
      | [] => [] :: r
      | d :: _ => if p d then r else [] :: r
    else
      match r with
      | [] => [[c]]
      | h :: tl => (c :: h) :: tl

/-- Python `str.splitlines()` on a non-empty character list: split at
`\n`, `\r\n` or `\r`, with no trailing empty line for a trailing
terminator. -/
def splitLinesCore : List Char → List (List Char)
  | [] => [[]]
  | '\n' :: [] => [[]]
  | '\r' :: '\n' :: [] => [[]]
  | '\r' :: '\n' :: t => [] :: splitLinesCore t
  | '\n' :: t => [] :: splitLinesCore t
  | '\r' :: [] => [[]]
  | '\r' :: t => [] :: splitLinesCore t
  | c :: t =>
    match splitLinesCore t with
    | [] => [[c]]
    | h :: tl => (c :: h) :: tl

/-- Python `str.splitlines()` (empty string gives no lines). -/
def pySplitLines (l : List Char) : List (List Char) :=
  if l.isEmpty then [] else splitLinesCore l

/-- Environment lookup (`os.getenv`): the process environment is passed in
explicitly as a partial map from variable names to values. -/
def Env : Type := String → Option String

/-- `validators.ensure_token`: an explicit argument wins; `None` falls back
to the `LDLINK_TOKEN` environment variable; a blank value from either
source is a `TokenMissingError`. -/
def ensure_token (token : Option String) (env : Env) : Except PyErr String :=
  match token with
  | some t =>
    let tok := pyStrip t
    if tok.data.isEmpty then
      .error (.tokenMissing
        "LDlink token was provided but is empty. Provide a non-empty token or set LDLINK_TOKEN.")
    else .ok tok
  | none =>
    match env "LDLINK_TOKEN" with
    | none => .error (.tokenMissing
        "LDlink token is missing. Pass `token=` or set environment variable LDLINK_TOKEN.")
    | some envTok =>
      if (pyStrip envTok).data.isEmpty then
        .error (.tokenMissing
          "LDlink token is missing. Pass `token=` or set environment variable LDLINK_TOKEN.")
      else .ok (pyStrip envTok)

/-- The argument forms accepted for SNP inputs: a single free-form string,
or a list of strings (the tuple case behaves like the list case). -/
inductive SnpsInput where
  | str (s : String)
  | list (l : List String)

/-- The character class of `validators._SPLIT_SNPS_RE = re.compile(r"[,\s+;|]+")`:
comma, whitespace, plus, semicolon, pipe. -/
def snpSepChar (c : Char) : Bool :=
  c == ',' || c == ';' || c == '|' || c == '+' || wsChar c

/-- `validators.normalize_snps`: a single string is stripped and split on
runs of `snpSepChar`; a list has each element stripped; empty entries are
dropped; an empty final list is a `ValidationError`. -/
def normalize_snps (snps : SnpsInput) : Except PyErr (List String) :=
  let items : List (List Char) :=
    match snps with
    | .str s =>
      let raw := stripL s.data
      if raw.isEmpty then []
      else
        let toks := (splitRuns snpSepChar raw).filter
          (fun t => !t.isEmpty && !(stripL t).isEmpty)
        (toks.filter (fun t => !(stripL t).isEmpty)).map stripL
    | .list l =>
      (l.filter (fun s => !(stripL s.data).isEmpty)).map (fun s => stripL s.data)
  if items.isEmpty then
    .error (.validationError "No SNPs provided after normalization.")
  else
    .ok (items.map (fun t => (⟨t⟩ : String)))

/-- The separators recognised by `ldmatrix._normalize_snps` for string
input: the characters it rewrites to a space before splitting on spaces. -/
def matSepChar (c : Char) : Bool :=
  c == '\n' || c == '\r' || c == '\t' || c == ','

/-- `endpoints/ldmatrix._normalize_snps`: for a string, newline, carriage
return, tab and comma are each replaced by a space and the result is split
on spaces (the successive `str.replace` calls all target a single
character and all write a space, so one pass is equivalent); for a list,
each element is stripped; blank entries are dropped; an empty final list
is a `ValueError`. -/
def mat_normalize_snps (snps : SnpsInput) : Except PyErr (List String) :=
  let parts : List (List Char) :=
    match snps with
    | .str s =>
      let raw := s.data.map (fun c => if matSepChar c then ' ' else c)
      ((splitOnChar ' ' raw).filter (fun p => !(stripL p).isEmpty)).map stripL
    | .list l =>
      (l.filter (fun s => !(stripL s.data).isEmpty)).map (fun s => stripL s.data)
  if parts.isEmpty then
    .error (.valueError "snps must contain at least one SNP identifier.")
  else
    .ok (parts.map (fun t => (⟨t⟩ : String)))

/-- Decoded JSON values (the Python objects produced by `json.loads`). -/
inductive PyVal where
  | str (s : String)
  | num (q : ℚ)
  | bool (b : Bool)
  | null
  | arr (l : List PyVal)
  | obj (l : List (String × PyVal))

/-- `parsing.is_json_response`: the regex `^\s*[\x7b\x5b]` — after leading
whitespace the first character is an opening brace or bracket. -/
def is_json_response (text : String) : Bool :=
  match text.data.dropWhile wsChar with
  | [] => false
  | c :: _ => c == '{' || c == '['

/-- Abstract model of the standard-library `json.loads` (an external
collaborator): `some v` is a successful decode, `none` a
`json.JSONDecodeError`. -/
def JsonDecoder : Type := String → Option PyVal

/-- Python ASCII `str.lower()`. -/
def pyLower (s : String) : String := ⟨s.data.map Char.toLower⟩

/-- Python ASCII `str.upper()`. -/
def pyUpper (s : String) : String := ⟨s.data.map Char.toUpper⟩

/-- Python `str.rstrip(c)` for a single character. -/
def rstripChar (c : Char) (s : String) : String :=
  ⟨(s.data.reverse.dropWhile (fun d => d == c)).reverse⟩

/-- Python `str.lstrip(c)` for a single character. -/
def lstripChar (c : Char) (s : String) : String :=
  ⟨s.data.dropWhile (fun d => d == c)⟩

/-- The outgoing request handed to the transport (`requests.request`). -/
structure HttpReq where
  method : String
  url : String
  params : List (String × String)
  jsonBody : Option PyVal
  headers : Option (List (String × String))
  timeout : ℚ

/-- What one transport attempt produces: a connection-level failure
(`requests.exceptions.ConnectionError`, carrying its repr text) or an HTTP
response with status code, reason phrase and body text. -/
inductive TranspResult where
  | connError (e : String)
  | resp (status : Nat) (reason : String) (body : String)
deriving DecidableEq

/-- The transport (an external collaborator): given the request and
whether the IPv4-only resolver patch is active for the attempt, produce an
outcome.  Successive attempts may behave differently, which the theorems
express by choosing the function. -/
def Transport : Type := HttpReq → Bool → TranspResult

/-- One transport attempt as recorded in a dispatch trace. -/
structure Attempt where
  req : HttpReq
  ipv4Only : Bool

/-- Python dict update `d[k] = v`: overwrite in place or append. -/
def dictSet (d : List (String × String)) (k v : String) : List (String × String) :=
  if d.any (fun p => p.1 == k) then d.map (fun p => if p.1 == k then (k, v) else p)
  else d ++ [(k, v)]

/-- Assoc lookup, modelling Python `dict.get` (keys are unique). -/
def dictGet (d : List (String × String)) (k : String) : Option String :=
  (d.find? (fun p => p.1 == k)).map (fun p => p.2)

/-- `http._raise_for_status` snippet: strip the body, blank out CR and LF,
and truncate to 500 characters plus an ellipsis. -/
def statusSnippet (body : String) : String :=
  let sn := ((stripL body.data).map (fun c => if c == '\r' then ' ' else c)).map
    (fun c => if c == '\n' then ' ' else c)
  if 500 < sn.length then ⟨sn.take 500 ++ ('.' :: '.' :: '.' :: [])⟩ else ⟨sn⟩

/-- The `RuntimeError` message raised by `http._raise_for_status` for an
HTTP status of 400 or more. -/
def raiseForStatusMsg (status : Nat) (reason url body : String) : String :=
  "LDlink request failed: HTTP " ++ toString status ++ " " ++ reason ++ " for " ++ url ++
    ". Response: " ++ statusSnippet body

/-- A dispatcher result body: decoded JSON, or the raw text. -/
inductive Payload where
  | text (s : String)
  | json (v : PyVal)

/-- `http._parse_body`: decode when the body looks like JSON; fall back to
the raw text when decoding fails. -/
def parse_body (jd : JsonDecoder) (body : String) : Payload :=
  if is_json_response body then
    match jd body with
    | some v => .json v
    | none => .text body
  else .text body

/-- The `RuntimeError` message raised after two consecutive connection
failures (`e` and `e2` stand for the exception repr texts interpolated by
the f-string). -/
def connRetryMsg (url e e2 : String) : String :=
  "LDlink request failed due to connection error after IPv4 retry for " ++ url ++
    ". Original error: " ++ e ++ "; Retry error: " ++ e2

/-- The arguments of `http.request` (all keyword-only in the source). -/
structure HttpArgs where
  endpoint : String
  params : List (String × String)
  jsonBody : Option PyVal
  headers : Option (List (String × String))
  token : Option String
  api_root : String
  method : String
  timeout : ℚ

/-- `http.request`: resolve the token, merge it into the query parameters,
build the URL, attempt the transport once, retry exactly once under the
IPv4-only resolver patch on a connection error, fail fatally on a second
connection error or on any status of 400 or more, and otherwise decode the
body.  Returns the result together with the trace of transport attempts
(the `urljoin` of the source reduces to path concatenation for the plain
endpoint names and absolute roots this library uses). -/
def http_request (t : Transport) (jd : JsonDecoder) (env : Env) (a : HttpArgs) :
    Except PyErr Payload × List Attempt :=
  match ensure_token a.token env with
  | .error e => (.error e, [])
  | .ok tok =>
    let qparams := dictSet a.params "token" tok
    let url := rstripChar '/' a.api_root ++ "/" ++ lstripChar '/' a.endpoint
    let req : HttpReq := ⟨a.method, url, qparams, a.jsonBody, a.headers, a.timeout⟩
    match t req false with
    | .connError e =>
      match t req true with
      | .connError e2 =>
        (.error (.runtimeError (connRetryMsg url e e2)), [⟨req, false⟩, ⟨req, true⟩])
      | .resp status reason body =>
        if 400 ≤ status then
          (.error (.runtimeError (raiseForStatusMsg status reason url body)),
            [⟨req, false⟩, ⟨req, true⟩])
        else (.ok (parse_body jd body), [⟨req, false⟩, ⟨req, true⟩])
    | .resp status reason body =>
      if 400 ≤ status then
        (.error (.runtimeError (raiseForStatusMsg status reason url body)), [⟨req, false⟩])
      else (.ok (parse_body jd body), [⟨req, false⟩])

/-- The keyword parameter names accepted by `http.request` (every
parameter after the `*` marker of its signature; there is no catch-all
keywords parameter). -/
def httpRequestKeywordNames : List String :=
  ["params", "json_body", "headers", "token", "api_root", "method", "timeout"]

/-- A Python keyword call of `http.request`: passing any keyword outside
the signature raises `TypeError` before the function body (and hence the
transport) runs. -/
def callHttpRequest (t : Transport) (jd : JsonDecoder) (env : Env)
    (kwargs : List String) (a : HttpArgs) : Except PyErr Payload × List Attempt :=
  match kwargs.find? (fun k => !httpRequestKeywordNames.contains k) with
  | some k => (.error (.typeError ("request() got an unexpected keyword argument " ++ k)), [])
  | none => http_request t jd env a

/-- The mutual-exclusion gates that exist in the code: the module-level
lock of `http.py`, the separate module-level lock of
`endpoints/ldmatrix.py`, and the per-instance lock created in
`client.LDlinkClient.__init__`. -/
inductive LockId where
  | httpModuleLock
  | ldmatrixModuleLock
  | clientInstanceLock (instanceId : Nat)
deriving DecidableEq

/-- The three transport call sites of the library. -/
inductive TransportCallSite where
  | httpRequest
  | ldmatrixRequestJson
  | clientRequest (instanceId : Nat)
deriving DecidableEq

/-- The gate each transport call site acquires around its transport call,
read off the with-statements of `http.request`,
`ldmatrix._request_json` and `LDlinkClient.request`. -/
def lockOf : TransportCallSite → LockId
  | .httpRequest => .httpModuleLock
  | .ldmatrixRequestJson => .ldmatrixModuleLock
  | .clientRequest i => .clientInstanceLock i

/-- Where a guarded caller is in its lock-transport-release protocol. -/
inductive Phase where
  | start
  | holding
  | inTransport
  | finished
deriving DecidableEq

/-- A phase in which the caller holds its gate. -/
def Phase.critical : Phase → Prop
  | .holding => True
  | .inTransport => True
  | _ => False

/-- Two concurrent callers, each about to make one transport call guarded
by its own gate, plus the set of currently held gates. -/
structure TwoThreadState where
  a : Phase
  b : Phase
  held : List LockId
deriving DecidableEq

/-- Interleaving steps of two callers whose call sites use gates `la` and
`lb`: each caller acquires its gate (blocking while the gate is held),
performs its transport call while holding it, and releases it afterwards —
the protocol every call site of the code follows. -/
inductive TStep (la lb : LockId) : TwoThreadState → TwoThreadState → Prop where
  | acquireA (s : TwoThreadState) (h : s.a = .start) (hl : ¬ la ∈ s.held) :
      TStep la lb s ⟨.holding, s.b, la :: s.held⟩
  | enterA (s : TwoThreadState) (h : s.a = .holding) :
      TStep la lb s ⟨.inTransport, s.b, s.held⟩
  | exitA (s : TwoThreadState) (h : s.a = .inTransport) :
      TStep la lb s ⟨.finished, s.b, s.held.erase la⟩
  | acquireB (s : TwoThreadState) (h : s.b = .start) (hl : ¬ lb ∈ s.held) :
      TStep la lb s ⟨s.a, .holding, lb :: s.held⟩
  | enterB (s : TwoThreadState) (h : s.b = .holding) :
      TStep la lb s ⟨s.a, .inTransport, s.held⟩
  | exitB (s : TwoThreadState) (h : s.b = .inTransport) :
      TStep la lb s ⟨s.a, .finished, s.held.erase lb⟩

/-- States reachable from both callers not yet started, no gate held. -/
inductive TReach (la lb : LockId) : TwoThreadState → Prop where
  | init : TReach la lb ⟨.start, .start, []⟩
  | step (s u : TwoThreadState) : TReach la lb s → TStep la lb s u → TReach la lb u

/-- Python `str.split(sep)` generalised to a separator predicate (used for
splitting a float literal at its `e`/`E` exponent marker and at `.`). -/
def splitOnPred (p : Char → Bool) : List Char → List (List Char)
  | [] => [[]]
  | c :: t =>
    if p c then [] :: splitOnPred p t
    else
      match splitOnPred p t with
      | [] => [[c]]
      | h :: tl => (c :: h) :: tl

/-- Read a decimal digit string left to right; `none` on any non-digit
character; the empty string reads as 0 (callers reject it where Python
does). -/
def digitsVal? (l : List Char) : Option ℕ :=
  l.foldl
    (fun acc c =>
      match acc with
      | none => none
      | some v => if c.isDigit then some (10 * v + (c.toNat - 48)) else none)
    (some 0)

/-- The integer part / fractional part of a float literal: `d+`, `d+.d*`
or `.d+`, valued as a rational. -/
def parseMantissa? (l : List Char) : Option ℚ :=
  match splitOnChar '.' l with
  | [a] =>
    if a.isEmpty then none else (digitsVal? a).map (fun n => (n : ℚ))
  | [a, b] =>
    if a.isEmpty && b.isEmpty then none
    else
      match digitsVal? a, digitsVal? b with
      | some ia, some fb => some ((ia : ℚ) + (fb : ℚ) / (10 : ℚ) ^ b.length)
      | _, _ => none
  | _ => none

/-- The exponent of a float literal: an optional sign and a non-empty
digit string. -/
def parseExp? (l : List Char) : Option ℤ :=
  let sg : Bool × List Char :=
    match l with
    | '+' :: t => (false, t)
    | '-' :: t => (true, t)
    | _ => (false, l)
  if sg.2.isEmpty then none
  else (digitsVal? sg.2).map (fun n => if sg.1 then -(n : ℤ) else (n : ℤ))

/-- CPython `float(...)` on the ordinary decimal and scientific literals
that `pandas.to_numeric` meets here: optional surrounding whitespace,
optional sign, mantissa, optional `e`/`E` exponent.  (The `inf`/`nan`
words and underscore separators accepted by `float` are not modelled; no
claim exercises them.)  `none` models a conversion failure, which
`errors="coerce"` turns into a missing value. -/
def parseFloat? (s : List Char) : Option ℚ :=
  let l := stripL s
  let sg : Bool × List Char :=
    match l with
    | '+' :: t => (false, t)
    | '-' :: t => (true, t)
    | _ => (false, l)
  match splitOnPred (fun c => c == 'e' || c == 'E') sg.2 with
  | [m] => (parseMantissa? m).map (fun q => if sg.1 then -q else q)
  | [m, e] =>
    match parseMantissa? m, parseExp? e with
    | some q, some z => some ((if sg.1 then -q else q) * (10 : ℚ) ^ z)
    | _, _ => none
  | _ => none

/-- `pandas.to_numeric(errors="coerce")` on one string cell. -/
def toNumericStr (s : String) : Option ℚ := parseFloat? s.data

/-- Split one CSV line at tabs into string cells. -/
def splitTabs (l : List Char) : List String :=
  (splitOnChar '\t' l).map (fun t => (⟨t⟩ : String))

/-- pandas header fixup: an empty header cell at position `start + i` is
renamed `Unnamed: <position>`. -/
def renameUnnamedFrom (start : Nat) (cells : List String) : List String :=
  cells.enum.map (fun p => if p.2 == "" then "Unnamed: " ++ toString (start + p.1) else p.2)

/-- `collections.defaultdict(int)` lookup, as used by pandas
`dedup_names`: a missing key counts as 0. -/
def countsGet (d : List (String × Nat)) (k : String) : Nat :=
  ((d.find? (fun p => p.1 == k)).map (fun p => p.2)).getD 0

/-- Python dict assignment `d[k] = v`: the existing entry is updated in
place, a new key is appended. -/
def countsSet : List (String × Nat) → String → Nat → List (String × Nat)
  | [], k, v => [(k, v)]
  | p :: rest, k, v => if p.1 == k then (k, v) :: rest else p :: countsSet rest k v

/-- The `while cur_count > 0` loop of pandas `dedup_names`: as long as the
candidate name already holds a positive count, bump that count and append
`.<count>` to the candidate.  The loop runs at most `counts.length` times
(every visited candidate must be an existing key with a positive count,
and the candidates strictly lengthen, so they are pairwise distinct), so
the fuel `counts.length + 1` passed by the caller never runs out. -/
def dedupGo (fuel : Nat) (counts : List (String × Nat)) (col : String) :
    String × List (String × Nat) :=
  let cur := countsGet counts col
  if cur == 0 then (col, counts)
  else
    match fuel with
    | 0 => (col, counts)
    | fuel2 + 1 => dedupGo fuel2 (countsSet counts col (cur + 1)) (col ++ "." ++ toString cur)

/-- One left-to-right pass of `dedup_names` over the header cells,
threading the occurrence counts; after each resolved name its count is
set to `cur_count + 1`. -/
def dedupAux (counts : List (String × Nat)) : List String → List String
  | [] => []
  | col :: rest =>
    let r := dedupGo (counts.length + 1) counts col
    r.1 :: dedupAux (countsSet r.2 r.1 (countsGet r.2 r.1 + 1)) rest

/-- `pandas.io.common.dedup_names`, the mangling `read_csv` always applies
to duplicate column names: later occurrences of a repeated header name
become `name.1`, `name.2`, ...; a mangled candidate that collides with a
name already counted is mangled again. -/
def dedupNames (names : List String) : List String := dedupAux [] names

/-- The raw output of `pandas.read_csv(sep="\t", header=0)` on a list of
newline-free lines: the first line is the header (empty header cells
renamed, duplicate names mangled); later lines are data rows.  A data row
wider than the header is a parse error; a narrower row is padded with
empty cells.  (This models `read_csv` for the regular shapes these claims
exercise; the cells keep their string form, matching `dtype=str` /
`dtype="string"`.) -/
structure CsvRaw where
  header : List String
  rows : List (List String)
deriving DecidableEq

/-- `pandas.read_csv(sep="\t", header=0, dtype=str)` over pre-split
non-blank lines: unnamed-column fixup, then the mandatory
duplicate-column-name mangling `dedup_names`. -/
def readCsvTab (lines : List (List Char)) : Except PyErr CsvRaw :=
  match lines.map splitTabs with
  | [] => .error (.parseError "No columns to parse from file")
  | h :: data =>
    let header := dedupNames (renameUnnamedFrom 0 h)
    if data.any (fun r => header.length < r.length) then
      .error (.parseError "Error tokenizing data")
    else
      .ok ⟨header, data.map (fun r => r ++ List.replicate (header.length - r.length) "")⟩

/-- `pandas.read_csv(sep="\t", header=None, dtype="string")` over
pre-split non-blank lines: every line is data; the column count comes from
the first line. -/
def readCsvTabNoHeader (lines : List (List Char)) : Except PyErr (Nat × List (List String)) :=
  match lines.map splitTabs with
  | [] => .error (.parseError "No columns to parse from file")
  | h :: data =>
    let n := h.length
    if data.any (fun r => n < r.length) then
      .error (.parseError "Error tokenizing data")
    else
      .ok (n, (h :: data).map (fun r => r ++ List.replicate (n - r.length) ""))

/-- `parsing._NUMERIC_TOKEN_RE`: `^[+-]?(\d+(\.\d*)?|\.\d+)([eE][+-]?\d+)?$`. -/
def numericToken (l : List Char) : Bool :=
  let body : List Char :=
    match l with
    | c :: t => if c == '+' || c == '-' then t else c :: t
    | [] => []
  let mantOK : List Char → Bool := fun m =>
    match splitOnChar '.' m with
    | [a] => !a.isEmpty && a.all Char.isDigit
    | [a, b] =>
      (!a.isEmpty && a.all Char.isDigit && b.all Char.isDigit) ||
        (a.isEmpty && !b.isEmpty && b.all Char.isDigit)
    | _ => false
  let expOK : List Char → Bool := fun e =>
    let ebody : List Char :=
      match e with
      | c :: t => if c == '+' || c == '-' then t else c :: t
      | [] => []
    !ebody.isEmpty && ebody.all Char.isDigit
  match splitOnPred (fun c => c == 'e' || c == 'E') body with
  | [m] => mantOK m
  | [m, e] => mantOK m && expOK e
  | _ => false

/-- `tok.lower().startswith("rs") and tok[2:].isdigit()`. -/
def rsLikeToken (t : List Char) : Bool :=
  match t with
  | a :: b :: rest =>
    (a.toLower == 'r') && (b.toLower == 's') && (!rest.isEmpty && rest.all Char.isDigit)
  | _ => false

/-- `parsing._looks_like_header`: tokens of the first line (tab-split,
stripped, blanks dropped); header when any token has a letter or looks
like an rsID; headerless only when every token is numeric-like; header on
ambiguity or when no tokens remain. -/
def looks_like_header (first_line : List Char) : Bool :=
  let tokens := ((splitOnChar '\t' first_line).map stripL).filter (fun t => !t.isEmpty)
  if tokens.isEmpty then true
  else if tokens.any (fun t => t.any Char.isAlpha) then true
  else if tokens.any rsLikeToken then true
  else if tokens.all numericToken then false
  else true

/-- A plain table: named columns over rows of string cells (the index is
the default range index, which the code never consults). -/
structure TsvFrame where
  columns : List String
  cells : List (List String)
deriving DecidableEq

/-- `parsing.parse_tsv`: strip blank lines, fail on an empty remainder,
detect a header row heuristically, read the lines as tab-separated values
keeping all cells as literal strings, and synthesize `V1..Vn` column names
in the headerless case. -/
def parse_tsv (text : String) : Except PyErr TsvFrame :=
  let lines := (pySplitLines text.data).filter (fun ln => !(stripL ln).isEmpty)
  match lines with
  | [] => .error (.parseError "Unable to parse TSV: response is empty or only blank lines.")
  | first :: _ =>
    if looks_like_header first then
      match readCsvTab lines with
      | .error _ => .error (.parseError "Unable to parse TSV.")
      | .ok c => .ok ⟨c.header, c.rows⟩
    else
      match readCsvTabNoHeader lines with
      | .error _ => .error (.parseError "Unable to parse TSV.")
      | .ok p => .ok ⟨(List.range p.1).map (fun i => "V" ++ toString (i + 1)), p.2⟩

/-- A table with a row index, as produced by `parsing.parse_matrix`
(string cells, no numeric coercion, no squareness check). -/
structure IdxFrame where
  indexName : Option String
  index : List String
  columns : List String
  cells : List (List String)
deriving DecidableEq

/-- `parsing.parse_matrix`: strip blank lines, fail on an empty remainder,
read with the first row as column headers and the first column as the row
index (`index_col=0`), keep every cell as a literal string, apply the
`Unnamed: 0` set_index fixup — and return whatever shape results, with no
squareness check. -/
def parsing_parse_matrix (text : String) : Except PyErr IdxFrame :=
  let lines := (pySplitLines text.data).filter (fun ln => !(stripL ln).isEmpty)
  match lines.map splitTabs with
  | [] => .error (.parseError "Unable to parse matrix: response is empty or only blank lines.")
  | h :: data =>
    match h with
    | [] => .error (.parseError "Unable to parse matrix.")
    | h0 :: hrest =>
      let cols := renameUnnamedFrom 1 hrest
      if data.any (fun r => h.length < r.length) then
        .error (.parseError "Unable to parse matrix.")
      else
        let rows := data.map (fun r => r ++ List.replicate (h.length - r.length) "")
        let idxName : Option String := if h0 == "" then none else some h0
        let index := rows.map (fun r => r.headD "")
        let cells := rows.map (fun r => r.tail)
        if cols.contains "Unnamed: 0" && idxName.isNone then
          match cols.indexOf? "Unnamed: 0" with
          | some p =>
            .ok ⟨some "Unnamed: 0", cells.map (fun r => r.getD p ""), cols.eraseIdx p,
              cells.map (fun r => r.eraseIdx p)⟩
          | none => .ok ⟨idxName, index, cols, cells⟩
        else .ok ⟨idxName, index, cols, cells⟩

/-- A numeric matrix table: labelled rows and columns over
numeric-coerced cells (`none` is a missing value). -/
structure DFrame where
  index : List String
  columns : List String
  cells : List (List (Option ℚ))
deriving DecidableEq

/-- `parsers._parse_tsv_matrix`: keep non-blank lines (without stripping
the text as a whole, preserving the leading tab of the header), read as
tab-separated values with the first row as headers, make the first column
the row index (`set_index(df.columns[0])`, which requires that column name
to be unique), coerce every cell to numeric, and fail unless the result is
square. -/
def parsers_parse_tsv_matrix (text : String) : Except PyErr DFrame :=
  let lines := (pySplitLines text.data).filter (fun ln => !(stripL ln).isEmpty)
  if lines.isEmpty then .error (.valueError "Empty matrix response.")
  else
    match readCsvTab lines with
    | .error e => .error e
    | .ok c =>
      match c.header with
      | [] => .error (.parseError "No columns to parse from file")
      | first :: colsRest =>
        if colsRest.contains first then
          .error (.valueError "The column label is not unique")
        else
          let index := c.rows.map (fun r => r.headD "")
          let cells := c.rows.map (fun r => r.tail.map toNumericStr)
          if c.rows.length ≠ colsRest.length then
            .error (.valueError "Parsed matrix is not square")
          else .ok ⟨index, colsRest, cells⟩

/-- Python `str(x)` on a decoded JSON value, as used on matrix labels
(labels are strings in every reachable case; the container renderings are
placeholders). -/
def pyStr : PyVal → String
  | .str s => s
  | .num q => toString q
  | .bool b => if b then "True" else "False"
  | .null => "None"
  | .arr _ => "list"
  | .obj _ => "dict"

/-- `dict.get` on a decoded JSON object (keys unique in a Python dict). -/
def objGet (d : List (String × PyVal)) (k : String) : Option PyVal :=
  (d.find? (fun p => p.1 == k)).map (fun p => p.2)

/-- The candidate keys probed for matrix text at the top level. -/
def matrixTextKeys : List String := ["matrix", "data", "result", "results", "output", "text", "tsv"]

/-- The candidate keys probed for matrix text one level under a
`response`/`payload` wrapper (the source omits `results` here). -/
def matrixTextSubKeys : List String := ["matrix", "data", "result", "output", "text", "tsv"]

/-- The candidate keys probed for a list-of-lists matrix. -/
def matrixArrayKeys : List String := ["matrix", "data", "result", "results"]

/-- `parsers._try_extract_matrix_text` (the bytes branch is not modelled:
the transport model yields decoded text). -/
def try_extract_matrix_text (payload : PyVal) : Option String :=
  match payload with
  | .str s => some s
  | .obj d =>
    match matrixTextKeys.findSome? (fun k =>
        match objGet d k with
        | some (.str v) => if (pyStrip v).data.isEmpty then none else some v
        | _ => none) with
    | some v => some v
    | none =>
      ["response", "payload"].findSome? (fun k =>
        match objGet d k with
        | some (.obj sub) =>
          matrixTextSubKeys.findSome? (fun sk =>
            match objGet sub sk with
            | some (.str v) => if (pyStrip v).data.isEmpty then none else some v
            | _ => none)
        | _ => none)
  | _ => none

/-- `parsers._coerce_list_payload_to_matrix`: rows must all be lists; a
first row of at least two strings is a label header (first cell
discarded); otherwise a rectangular unlabeled matrix, given synthetic
`0..n-1` labels when square and no labels when not. -/
def coerce_list_payload (val : List PyVal) :
    Option (List (List PyVal) × Option (List String) × Option (List String)) :=
  match val.mapM (fun r => match r with | .arr l => some l | _ => none) with
  | none => none
  | some rows =>
    match rows with
    | [] => none
    | r0 :: rest =>
      if r0.all (fun x => match x with | .str _ => true | _ => false) && 2 ≤ r0.length then
        let colLabels := (r0.drop 1).map pyStr
        if rest.all (fun r => r.length == colLabels.length + 1) then
          some (rest.map (fun r => r.drop 1), some (rest.map (fun r => pyStr (r.headD .null))),
            some colLabels)
        else none
      else
        let ncols := r0.length
        if ncols == 0 then none
        else if !((r0 :: rest).all (fun r => r.length == ncols)) then none
        else if rest.length + 1 == ncols then
          some (r0 :: rest, some ((List.range (rest.length + 1)).map (fun i => toString i)),
            some ((List.range (rest.length + 1)).map (fun i => toString i)))
        else some (r0 :: rest, none, none)

/-- `parsers._try_extract_matrix_array`: a direct non-empty list, or the
first non-empty list found under the candidate keys (one wrapper level
deep); the coercion of the found list is returned as-is — a failed
coercion is not retried at other keys. -/
def try_extract_matrix_array (payload : PyVal) :
    Option (List (List PyVal) × Option (List String) × Option (List String)) :=
  match payload with
  | .arr l => if l.isEmpty then none else coerce_list_payload l
  | .obj d =>
    match matrixArrayKeys.findSome? (fun k =>
        match objGet d k with
        | some (.arr v) => if v.isEmpty then none else some v
        | _ => none) with
    | some v => coerce_list_payload v
    | none =>
      match ["response", "payload"].findSome? (fun k =>
          match objGet d k with
          | some (.obj sub) =>
            matrixArrayKeys.findSome? (fun sk =>
              match objGet sub sk with
              | some (.arr v) => if v.isEmpty then none else some v
              | _ => none)
          | _ => none) with
      | some v => coerce_list_payload v
      | none => none
  | _ => none

/-- `parsers._try_extract_error_message`. -/
def try_extract_error_message (payload : PyVal) : Option String :=
  match payload with
  | .obj d =>
    ["error", "errors", "message", "detail", "status"].findSome? (fun k =>
      match objGet d k with
      | some (.str v) => if (pyStrip v).data.isEmpty then none else some (pyStrip v)
      | _ => none)
  | _ => none

/-- `pandas.to_numeric(errors="coerce")` on one decoded JSON cell. -/
def toNumericVal : PyVal → Option ℚ
  | .num q => some q
  | .str s => parseFloat? s.data
  | .bool b => some (if b then 1 else 0)
  | .null => none
  | .arr _ => none
  | .obj _ => none

/-- `parsers.parse_matrix`: probe for matrix text first, then for a
list-of-lists matrix (failing unless the resulting table is square), then
for an error message, and fail with an unsupported-shape error
otherwise.  `DataFrame` width is the label count when labels were
extracted, else the first row's width. -/
def parsers_parse_matrix (payload : PyVal) : Except PyErr DFrame :=
  match try_extract_matrix_text payload with
  | some text => parsers_parse_tsv_matrix text
  | none =>
    match try_extract_matrix_array payload with
    | some (matrix, rowLabels, colLabels) =>
      let nrows := matrix.length
      let width :=
        match colLabels with
        | some cl => cl.length
        | none => (matrix.headD []).length
      let index := rowLabels.getD ((List.range nrows).map (fun i => toString i))
      let cols := colLabels.getD ((List.range width).map (fun i => toString i))
      let cells := matrix.map (fun r => r.map toNumericVal)
      if nrows ≠ width then .error (.valueError "Parsed matrix is not square")
      else .ok ⟨index, cols, cells⟩
    | none =>
      match try_extract_error_message payload with
      | some msg => .error (.valueError ("LDlink returned an error payload: " ++ msg))
      | none =>
        .error (.typeError
          "Unsupported matrix payload type/shape. Expected TSV text, dict containing text/matrix, or list-of-lists matrix.")

/-- `ldlinkpython.DEFAULT_API_ROOT`. -/
def DEFAULT_API_ROOT : String := "https://ldlink.nih.gov/LDlinkRest"

/-- `validators.validate_genome_build` (case-insensitive allow-list). -/
def validate_genome_build (build : String) : Except PyErr String :=
  let v := pyLower (pyStrip build)
  if v == "grch37" || v == "grch38" then .ok v
  else .error (.validationError "Invalid genome build. Allowed values are grch37 or grch38.")

/-- `ldpair._normalize_pair`: both variants required and non-blank. -/
def normalize_pair (a b : Option String) : Except PyErr (String × String) :=
  match a, b with
  | some x, some y =>
    let xs := pyStrip x
    let ys := pyStrip y
    if xs.data.isEmpty || ys.data.isEmpty then
      .error (.valueError "var1 and var2 must be non-empty strings.")
    else .ok (xs, ys)
  | _, _ => .error (.valueError "Both var1 and var2 must be provided for a single SNP pair.")

/-- `ldpair._normalize_snp_pairs`: each pair stripped, blank components
rejected, an empty list rejected. -/
def normalize_snp_pairs (l : List (String × String)) : Except PyErr (List (String × String)) :=
  match l.mapM (fun p =>
      let x := pyStrip p.1
      let y := pyStrip p.2
      if x.data.isEmpty || y.data.isEmpty then
        Except.error (PyErr.valueError "snp_pairs contains an empty SNP id.")
      else Except.ok (x, y)) with
  | .error e => .error e
  | .ok out =>
    if out.isEmpty then .error (.valueError "snp_pairs must contain at least one pair.")
    else .ok out

/-- The arguments of `endpoints.ldpair.ldpair` (defaults as in the
source: pop "CEU", genome_build "grch37", api_root the default root,
output "table", request_method "auto"). -/
structure LdpairArgs where
  var1 : Option String
  var2 : Option String
  snp_pairs : Option (List (String × String))
  pop : String
  genome_build : String
  token : Option String
  api_root : String
  output : String
  request_method : String

/-- What an `ldpair` call returns: a parsed table, raw text, or decoded
JSON. -/
inductive LdpairResult where
  | frame (f : TsvFrame)
  | text (s : String)
  | json (v : PyVal)

/-- The JSON body `ldpair` builds for its POST branch. -/
def ldpairPostBody (pairs : List (String × String)) (pop gb : String) : PyVal :=
  .obj [("snp_pairs", .arr (pairs.map (fun p => .arr [.str p.1, .str p.2]))),
    ("pop", .str pop), ("genome_build", .str gb)]

/-- `endpoints.ldpair.ldpair`: validation, pair normalization, method
selection (GET for a single pair under `auto`, POST otherwise), then the
keyword call into `http.request` — the GET branch passes the keywords
`token/api_root/method/params`; the POST branch passes
`token/api_root/method/json` exactly as written in the source (note:
`json`, not the `json_body` the signature declares).  Returns the result
and the trace of transport attempts. -/
def ldpair (t : Transport) (jd : JsonDecoder) (env : Env) (a : LdpairArgs) :
    Except PyErr LdpairResult × List Attempt :=
  match validate_genome_build a.genome_build with
  | .error e => (.error e, [])
  | .ok _ =>
    if !(a.output == "table" || a.output == "text") then
      (.error (.valueError "output must be either table or text."), [])
    else
      let rm := pyLower (pyStrip a.request_method)
      if !(rm == "auto" || rm == "get" || rm == "post") then
        (.error (.valueError "request_method must be one of: auto, get, post."), [])
      else
        let usingSingle := a.var1.isSome || a.var2.isSome
        if a.snp_pairs.isSome && usingSingle then
          (.error (.valueError "Provide either (var1, var2) OR snp_pairs, not both."), [])
        else
          match
            (match a.snp_pairs with
             | none => (normalize_pair a.var1 a.var2).map (fun p => [p])
             | some sp => normalize_snp_pairs sp) with
          | .error e => (.error e, [])
          | .ok pairs =>
            let isMulti := decide (1 < pairs.length)
            if rm == "get" && isMulti then
              (.error (.valueError "request_method=get is only allowed for a single SNP pair."), [])
            else
              let method := if rm == "auto" then (if isMulti then "POST" else "GET") else pyUpper rm
              if method == "GET" then
                let p0 := pairs.headD ("", "")
                let r := callHttpRequest t jd env ["token", "api_root", "method", "params"]
                  ⟨"ldpair",
                    [("var1", p0.1), ("var2", p0.2), ("pop", a.pop), ("genome_build", a.genome_build)],
                    none, none, a.token, a.api_root, "GET", 60⟩
                match r.1 with
                | .error e => (.error e, r.2)
                | .ok (.json v) => (.ok (.json v), r.2)
                | .ok (.text s) =>
                  if a.output == "text" then (.ok (.text s), r.2)
                  else
                    match parse_tsv s with
                    | .error e => (.error e, r.2)
                    | .ok f => (.ok (.frame f), r.2)
              else
                let r := callHttpRequest t jd env ["token", "api_root", "method", "json"]
                  ⟨"ldpair", [], some (ldpairPostBody pairs a.pop a.genome_build), none,
                    a.token, a.api_root, "POST", 60⟩
                match r.1 with
                | .error e => (.error e, r.2)
                | .ok (.json v) => (.ok (.json v), r.2)
                | .ok (.text s) =>
                  if is_json_response s then
                    match jd s with
                    | some v => (.ok (.json v), r.2)
                    | none => (.error (.parseError "json.loads: Expecting value"), r.2)
                  else (.ok (.text s), r.2)

/-- `ldmatrix._get_token`: `token or os.getenv("LDLINK_TOKEN")`, with a
falsy check (`None` and the empty string fail; a whitespace-only token is
truthy and passes). -/
def mat_get_token (token : Option String) (env : Env) : Except PyErr String :=
  let tok : Option String :=
    match token with
    | some t => if t.data.isEmpty then env "LDLINK_TOKEN" else some t
    | none => env "LDLINK_TOKEN"
  match tok with
  | none => .error (.valueError
      "LDlink API token missing. Provide token=... or set environment variable LDLINK_TOKEN.")
  | some t =>
    if t.data.isEmpty then
      .error (.valueError
        "LDlink API token missing. Provide token=... or set environment variable LDLINK_TOKEN.")
    else .ok t

/-- `ldmatrix._validate_choice`: strip, reject blank, look up
case-insensitively in the allow-list, return the canonical entry. -/
def mat_validate_choice (name : String) (value : String) (allowed : List String) :
    Except PyErr String :=
  let v := pyStrip value
  if v.data.isEmpty then .error (.valueError (name ++ " is required."))
  else
    match allowed.find? (fun cand => pyLower cand == pyLower v) with
    | some cand => .ok cand
    | none => .error (.valueError (name ++ " must be one of the allowed values."))

/-- The `RuntimeError` message of `ldmatrix._request_json` for an HTTP
status of 400 or more: status, method and URL, followed by the whole
stripped body when non-blank — with no truncation. -/
def ldmatrixFailMsg (status : Nat) (method url body : String) : String :=
  let base := "LDlink request failed (" ++ toString status ++ ") for " ++ method ++ " " ++ url
  if (pyStrip body).data.isEmpty then base else base ++ ": " ++ pyStrip body

/-- The JSON-or-text data `_request_json` hands back. -/
inductive MatData where
  | json (v : PyVal)
  | text (s : String)

/-- `ldmatrix._request_json`: one transport call under the module lock, no
retry of any kind (`requests.RequestException` becomes an immediate
`RuntimeError`), immediate failure on status 400 or more, then
`resp.json()` with a fallback to the body text. -/
def ldmatrix_request_json (t : Transport) (jd : JsonDecoder) (method url : String)
    (headers : List (String × String)) (params : List (String × String))
    (body : Option PyVal) : Except PyErr MatData × List HttpReq :=
  let req : HttpReq := ⟨method, url, params, body, some headers, 120⟩
  match t req false with
  | .connError e => (.error (.runtimeError ("Network error calling LDlink endpoint: " ++ e)), [req])
  | .resp status _reason text =>
    if 400 ≤ status then (.error (.runtimeError (ldmatrixFailMsg status method url text)), [req])
    else
      match jd text with
      | some v => (.ok (.json v), [req])
      | none => (.ok (.text text), [req])

/-- The arguments of `endpoints.ldmatrix.ldmatrix` (defaults as in the
source: pop "CEU", r2d "r2", genome_build "grch37", api_root the default
root, return_type "dataframe", request_method "auto"). -/
structure LdmatrixArgs where
  snps : SnpsInput
  pop : String
  r2d : String
  genome_build : String
  token : Option String
  api_root : String
  return_type : String
  request_method : String

/-- What an `ldmatrix` call returns: a parsed matrix table, or the raw
response data. -/
inductive LdmatrixResult where
  | frame (df : DFrame)
  | raw (d : MatData)

/-- `endpoints.ldmatrix.ldmatrix`: normalize the SNPs, validate the
parameters, pick GET for at most 300 identifiers under `auto` and POST
beyond, resolve the token (sent only as a Bearer authorization header),
dispatch through `_request_json`, and parse with `parsers.parse_matrix`
unless raw output was requested.  Returns the result and the trace of
transport calls. -/
def ldmatrix (t : Transport) (jd : JsonDecoder) (env : Env) (a : LdmatrixArgs) :
    Except PyErr LdmatrixResult × List HttpReq :=
  match mat_normalize_snps a.snps with
  | .error e => (.error e, [])
  | .ok snpList =>
    let pop := pyStrip a.pop
    if pop.data.isEmpty then (.error (.valueError "pop is required."), [])
    else
      match mat_validate_choice "r2d" a.r2d ["r2", "d"] with
      | .error e => (.error e, [])
      | .ok r2d =>
        match mat_validate_choice "genome_build" a.genome_build ["grch37", "grch38"] with
        | .error e => (.error e, [])
        | .ok gb =>
          let rt := pyLower (pyStrip a.return_type)
          if !(rt == "dataframe" || rt == "raw") then
            (.error (.valueError "return_type must be dataframe or raw."), [])
          else
            let rm0 := pyLower (pyStrip a.request_method)
            if !(rm0 == "auto" || rm0 == "get" || rm0 == "post") then
              (.error (.valueError "request_method must be auto, get, or post."), [])
            else
              let rm := if rm0 == "auto" then (if snpList.length ≤ 300 then "get" else "post") else rm0
              match mat_get_token a.token env with
              | .error e => (.error e, [])
              | .ok tok =>
                let url := rstripChar '/' a.api_root ++ "/ldmatrix"
                let headers := [("Content-Type", "application/json"),
                  ("Accept", "application/json"), ("Authorization", "Bearer " ++ tok)]
                let r :=
                  if rm == "get" then
                    ldmatrix_request_json t jd "GET" url headers
                      [("snps", String.intercalate "+" snpList), ("pop", pop), ("r2_d", r2d),
                        ("genome_build", gb)] none
                  else
                    ldmatrix_request_json t jd "POST" url headers []
                      (some (.obj [("snps", .arr (snpList.map PyVal.str)), ("pop", .str pop),
                        ("r2_d", .str r2d), ("genome_build", .str gb)]))
                let res : Except PyErr LdmatrixResult :=
                  match r.1 with
                  | .error e => .error e
                  | .ok d =>
                    if rt == "raw" then .ok (.raw d)
                    else
                      match parsers_parse_matrix
                          (match d with | .json v => v | .text s => .str s) with
                      | .error _ =>
                        .error (.runtimeError "Failed to parse ldmatrix response with parse_matrix")
                      | .ok df => .ok (.frame df)
                (res, r.2)

/-- `LDlinkClient.__init__` token resolution:
`token or os.getenv("LDLINK_TOKEN")`. -/
def client_token (token : Option String) (env : Env) : Option String :=
  match token with
  | some t => if t.data.isEmpty then env "LDLINK_TOKEN" else some t
  | none => env "LDLINK_TOKEN"

/-- `client.LDlinkClient.request`: reject a falsy token, merge the token
into the query parameters, make one transport call under the instance
lock with no retry, accept only status 200, and return the body text.
Returns the result and the trace of transport calls. -/
def client_request (t : Transport) (tokenArg : Option String) (env : Env)
    (api_root method endpoint : String) (params : List (String × String))
    (json_body : Option PyVal) (timeout : ℚ) : Except PyErr String × List HttpReq :=
  match client_token tokenArg env with
  | none => (.error (.valueError "LDlink API token is required."), [])
  | some tok =>
    if tok.data.isEmpty then (.error (.valueError "LDlink API token is required."), [])
    else
      let url := rstripChar '/' api_root ++ "/" ++ lstripChar '/' endpoint
      let req : HttpReq := ⟨pyUpper method, url, dictSet params "token" tok, json_body, none, timeout⟩
      let res : Except PyErr String :=
        match t req false with
        | .connError e =>
          .error (.apiError ("Request failed for " ++ pyUpper method ++ " " ++ url ++ ": " ++ e))
        | .resp status _reason text =>
          if status ≠ 200 then
            .error (.apiError ("LDlink API error " ++ toString status ++ " for " ++ pyUpper method ++
              " " ++ url ++ ": " ++ text))
          else .ok text
      (res, [req])

/-- The non-empty pieces `re.split` leaves over: what splitting on runs of
the class `p` keeps after dropping the boundary empties. -/
def tokensOf (p : Char → Bool) (l : List Char) : List (List Char) :=
  (splitRuns p l).filter (fun t => !t.isEmpty)

/-- Join character lists with a single tab between them. -/
def tabJoin : List (List Char) → List Char
  | [] => []
  | [x] => x
  | x :: xs => x ++ '\t' :: tabJoin xs

/-- A rendered numeric cell for the round-trip property: a sign flag, the
mantissa digits, and the (negated) exponent digits — rendered as the float
literal `[-]<digits>e-<digits>`, which denotes
`±mantissa · 10^(-exponent)`.  Every decimal number has such renderings. -/
def renderCell (c : Bool × List Char × List Char) : List Char :=
  (if c.1 then ['-'] else []) ++ c.2.1 ++ 'e' :: '-' :: c.2.2

/-- The number a rendered cell denotes. -/
def cellValue (c : Bool × List Char × List Char) : ℚ :=
  (if c.1 then -1 else 1) * ((digitsVal? c.2.1).getD 0 : ℚ) *
    (10 : ℚ) ^ (-(((digitsVal? c.2.2).getD 0 : ℕ) : ℤ))

/-- The serialization named by the spec round-trip property (its words: a
square numeric matrix with N labelled rows/columns, serialized to
delimited text with a leading-empty-cell header): a header row of an empty
cell followed by the N labels, then one row per label holding the label
and its N rendered cells — tab-delimited, each row newline-terminated. -/
def specSerializeMatrix (labels : List String)
    (cells : List (List (Bool × List Char × List Char))) : String :=
  ⟨('\t' :: tabJoin (labels.map (fun lb => lb.data))) ++ '\n' ::
    (List.zipWith (fun lb row => lb.data ++ '\t' :: tabJoin (row.map renderCell) ++ ['\n'])
      labels cells).flatten⟩

/-! ## Helper lemmas -/

theorem ldmatrix_request_json_snd (t : Transport) (jd : JsonDecoder) (method url : String)
    (headers params : List (String × String)) (body : Option PyVal) :
    (ldmatrix_request_json t jd method url headers params body).2 =
      [⟨method, url, params, body, some headers, 120⟩] := by
  unfold ldmatrix_request_json
  dsimp only
  cases t ⟨method, url, params, body, some headers, 120⟩ false with
  | connError e => rfl
  | resp s r b =>
    dsimp only
    split
    · rfl
    · cases jd b <;> rfl

/-! ## Claim theorems -/

/-- C10: an explicitly provided token that is non-None but whitespace-only
makes `ensure_token` raise `TokenMissingError` without consulting the
environment (the result does not depend on the environment at all for a
non-None token); the `LDLINK_TOKEN` fallback is read only for a `None`
token. -/
theorem ensure_token_blank_explicit_skips_env :
    (∀ (s : String) (env : Env), stripL s.data = [] →
      ensure_token (some s) env = .error (.tokenMissing
        "LDlink token was provided but is empty. Provide a non-empty token or set LDLINK_TOKEN.")) ∧
    (∀ (s : String) (env1 env2 : Env), ensure_token (some s) env1 = ensure_token (some s) env2) ∧
    (∀ (env : Env) (v : String), env "LDLINK_TOKEN" = some v →
      ensure_token none env =
        (if (pyStrip v).data.isEmpty then
          .error (.tokenMissing
            "LDlink token is missing. Pass `token=` or set environment variable LDLINK_TOKEN.")
        else .ok (pyStrip v))) := by
  refine ⟨?_, ?_, ?_⟩
  · intro s env h
    unfold ensure_token
    simp [pyStrip, h]
  · intro s env1 env2
    rfl
  · intro env v h
    unfold ensure_token
    rw [h]

theorem ensure_token_blank_explicit_skips_env_witness :
    stripL (" \t" : String).data = [] ∧
    ensure_token (some " \t") (fun _ => some "envtok") = .error (.tokenMissing
      "LDlink token was provided but is empty. Provide a non-empty token or set LDLINK_TOKEN.") ∧
    (fun (_ : String) => some "envtok") "LDLINK_TOKEN" = some "envtok" ∧
    ensure_token none (fun _ => some "envtok") =
      (if (pyStrip "envtok").data.isEmpty then
        .error (.tokenMissing
          "LDlink token is missing. Pass `token=` or set environment variable LDLINK_TOKEN.")
      else .ok (pyStrip "envtok")) :=
  ⟨by decide, ensure_token_blank_explicit_skips_env.1 " \t" (fun _ => some "envtok") (by decide),
    rfl, ensure_token_blank_explicit_skips_env.2.2 (fun _ => some "envtok") "envtok" rfl⟩

/-- C1 (code bug): an `ldpair` call with more than one SNP pair never
reaches the transport and never returns decoded JSON: the POST branch
calls `http.request` with the keyword `json`, which its signature does not
declare (it declares `json_body`), so Python raises `TypeError` before any
request is dispatched — for every transport, decoder and environment, and
for both output modes.  (The module tests miss this because they
monkeypatch `http_request` with a signature that does accept `json`.) -/
theorem ldpair_multi_pair_raises_type_error_before_transport :
    ∀ (t : Transport) (jd : JsonDecoder) (env : Env),
      (ldpair t jd env ⟨none, none, some [("rs1", "rs2"), ("rs3", "rs4")], "CEU", "grch37",
          some "tok", DEFAULT_API_ROOT, "table", "auto"⟩ =
        (.error (.typeError "request() got an unexpected keyword argument json"), [])) ∧
      (ldpair t jd env ⟨none, none, some [("rs1", "rs2"), ("rs3", "rs4")], "CEU", "grch37",
          some "tok", DEFAULT_API_ROOT, "text", "auto"⟩ =
        (.error (.typeError "request() got an unexpected keyword argument json"), [])) :=
  fun _ _ _ => ⟨rfl, rfl⟩

set_option maxRecDepth 8000

/-- C6: under `request_method="auto"` the `ldmatrix` endpoint issues its
one transport call with method GET exactly when the normalized identifier
list has at most 300 entries and POST beyond; in particular 300
identifiers use GET and 301 use POST. -/
theorem ldmatrix_auto_method_threshold :
    (∀ (t : Transport) (jd : JsonDecoder) (env : Env) (snps : SnpsInput) (l : List String),
      mat_normalize_snps snps = .ok l →
      (ldmatrix t jd env ⟨snps, "CEU", "r2", "grch37", some "tok", DEFAULT_API_ROOT,
          "dataframe", "auto"⟩).2.map (fun r => r.method) =
        [if l.length ≤ 300 then "GET" else "POST"]) ∧
    (∀ (t : Transport) (jd : JsonDecoder) (env : Env),
      (ldmatrix t jd env ⟨.list (List.replicate 300 "rs1"), "CEU", "r2", "grch37", some "tok",
          DEFAULT_API_ROOT, "dataframe", "auto"⟩).2.map (fun r => r.method) = ["GET"]) ∧
    (∀ (t : Transport) (jd : JsonDecoder) (env : Env),
      (ldmatrix t jd env ⟨.list (List.replicate 301 "rs1"), "CEU", "r2", "grch37", some "tok",
          DEFAULT_API_ROOT, "dataframe", "auto"⟩).2.map (fun r => r.method) = ["POST"]) := by
  have key : ∀ (t : Transport) (jd : JsonDecoder) (env : Env) (snps : SnpsInput) (l : List String),
      mat_normalize_snps snps = .ok l →
      (ldmatrix t jd env ⟨snps, "CEU", "r2", "grch37", some "tok", DEFAULT_API_ROOT,
          "dataframe", "auto"⟩).2.map (fun r => r.method) =
        [if l.length ≤ 300 then "GET" else "POST"] := by
    intro t jd env snps l h
    unfold ldmatrix
    rw [h]
    dsimp only
    by_cases hl : l.length ≤ 300
    · simp +decide only [hl, reduceIte,
        show mat_validate_choice "r2d" "r2" ["r2", "d"] = Except.ok "r2" from rfl,
        show mat_validate_choice "genome_build" "grch37" ["grch37", "grch38"] =
          Except.ok "grch37" from rfl,
        show mat_get_token (some "tok") env = Except.ok "tok" from rfl]
      simp [ldmatrix_request_json_snd]
    · simp +decide only [hl, reduceIte,
        show mat_validate_choice "r2d" "r2" ["r2", "d"] = Except.ok "r2" from rfl,
        show mat_validate_choice "genome_build" "grch37" ["grch37", "grch38"] =
          Except.ok "grch37" from rfl,
        show mat_get_token (some "tok") env = Except.ok "tok" from rfl]
      simp [ldmatrix_request_json_snd]
  refine ⟨key, ?_, ?_⟩
  · intro t jd env
    have := key t jd env (.list (List.replicate 300 "rs1")) (List.replicate 300 "rs1") (by decide)
    simpa using this
  · intro t jd env
    have := key t jd env (.list (List.replicate 301 "rs1")) (List.replicate 301 "rs1") (by decide)
    simpa using this

theorem ldmatrix_auto_method_threshold_witness :
    mat_normalize_snps (.list ["rs1", "rs2"]) = .ok ["rs1", "rs2"] ∧
    (ldmatrix (fun _ _ => .resp 200 "OK" "x") (fun _ => none) (fun _ => none)
      ⟨.list ["rs1", "rs2"], "CEU", "r2", "grch37", some "tok", DEFAULT_API_ROOT,
        "dataframe", "auto"⟩).2.map (fun r => r.method) =
      [if (["rs1", "rs2"] : List String).length ≤ 300 then "GET" else "POST"] :=
  ⟨by decide, ldmatrix_auto_method_threshold.1 (fun _ _ => .resp 200 "OK" "x") (fun _ => none)
    (fun _ => none) (.list ["rs1", "rs2"]) ["rs1", "rs2"] (by decide)⟩

theorem find_update_eq (k v : String) (d : List (String × String)) :
    (d.map (fun p => if p.1 == k then (k, v) else p)).find? (fun p => p.1 == k) =
      if d.any (fun p => p.1 == k) then some (k, v) else none := by
  induction d with
  | nil => rfl
  | cons p ds ih =>
    by_cases hp : (p.1 == k) = true
    · simp only [List.map_cons, if_pos hp]
      rw [List.find?_cons_of_pos _ (by simp), List.any_cons, hp, Bool.true_or, if_pos rfl]
    · have hp2 : (p.1 == k) = false := Bool.eq_false_iff.mpr hp
      simp only [List.map_cons, if_neg hp]
      rw [List.find?_cons_of_neg _ (by simp [hp2]), ih, List.any_cons, hp2, Bool.false_or]

theorem find_append_missing (k : String) (d tail : List (String × String))
    (h : d.any (fun p => p.1 == k) = false) :
    (d ++ tail).find? (fun p => p.1 == k) = tail.find? (fun p => p.1 == k) := by
  induction d with
  | nil => rfl
  | cons p ds ih =>
    simp only [List.any_cons, Bool.or_eq_false_iff] at h
    rw [List.cons_append, List.find?_cons_of_neg _ (by simp [h.1])]
    exact ih h.2

/-- `dict(params)` followed by `qparams["token"] = tok` always leaves the
token reachable under the key `"token"`. -/
theorem dictGet_dictSet (d : List (String × String)) (k v : String) :
    dictGet (dictSet d k v) k = some v := by
  unfold dictGet dictSet
  by_cases h : d.any (fun p => p.1 == k)
  · rw [if_pos h, find_update_eq, if_pos h]
    rfl
  · rw [if_neg h, find_append_missing k d _ (Bool.eq_false_iff.mpr h)]
    rw [List.find?_cons_of_pos _ (by simp)]
    rfl

/-- C2 counterexample: a concrete `ldmatrix` call issues its one transport
request with no `token` query parameter at all — the token travels only in
the Authorization header — refuting the claim that every endpoint
operation merges the token into the query parameters before the transport
call. -/
theorem ldmatrix_request_lacks_token_param :
    (ldmatrix (fun _ _ => .resp 200 "OK" "resp") (fun _ => none) (fun _ => none)
      ⟨.list ["rs1", "rs2"], "CEU", "r2", "grch37", some "sekret", DEFAULT_API_ROOT, "raw",
        "auto"⟩).2.map (fun r => (dictGet r.params "token", r.headers)) =
      [(none, some [("Content-Type", "application/json"), ("Accept", "application/json"),
        ("Authorization", "Bearer sekret")])] := rfl

/-- C2 (amended): calls dispatched through the shared `http.request` and
through `LDlinkClient.request` always merge the resolved token into the
query parameters under `"token"` (whatever the method); the `ldmatrix`
endpoint never adds a `token` query parameter and sends the token only as
a Bearer Authorization header. -/
theorem token_query_param_scope :
    (∀ (t : Transport) (jd : JsonDecoder) (env : Env) (a : HttpArgs) (tok : String),
      ensure_token a.token env = .ok tok →
      ∀ att ∈ (http_request t jd env a).2, dictGet att.req.params "token" = some tok) ∧
    (∀ (t : Transport) (tokenArg : Option String) (env : Env)
        (api_root method endpoint : String) (params : List (String × String))
        (jb : Option PyVal) (timeout : ℚ),
      ∀ r ∈ (client_request t tokenArg env api_root method endpoint params jb timeout).2,
        ∃ tok, client_token tokenArg env = some tok ∧ dictGet r.params "token" = some tok) ∧
    (∀ (t : Transport) (jd : JsonDecoder) (env : Env) (a : LdmatrixArgs) (tok : String),
      mat_get_token a.token env = .ok tok →
      ∀ r ∈ (ldmatrix t jd env a).2,
        dictGet r.params "token" = none ∧
        r.headers = some [("Content-Type", "application/json"), ("Accept", "application/json"),
          ("Authorization", "Bearer " ++ tok)]) := by
  refine ⟨?_, ?_, ?_⟩
  · intro t jd env a tok h att hatt
    unfold http_request at hatt
    rw [h] at hatt
    dsimp only at hatt
    have hget : dictGet (dictSet a.params "token" tok) "token" = some tok := dictGet_dictSet _ _ _
    split at hatt
    · split at hatt
      · simp only [List.mem_cons, List.mem_singleton] at hatt
        rcases hatt with h1 | h1 | h1 <;> first | (subst h1; exact hget) | cases h1
      · split at hatt <;>
          · simp only [List.mem_cons, List.mem_singleton] at hatt
            rcases hatt with h1 | h1 | h1 <;> first | (subst h1; exact hget) | cases h1
    · split at hatt <;>
        · simp only [List.mem_singleton] at hatt
          subst hatt
          exact hget
  · intro t tokenArg env api_root method endpoint params jb timeout r hr
    unfold client_request at hr
    dsimp only at hr
    split at hr
    · exact absurd hr (List.not_mem_nil r)
    · rename_i tok htok
      split at hr
      · exact absurd hr (List.not_mem_nil r)
      · simp only [List.mem_singleton] at hr
        subst hr
        exact ⟨tok, htok, dictGet_dictSet _ _ _⟩
  · intro t jd env a tok h r hr
    unfold ldmatrix at hr
    dsimp only at hr
    split at hr
    · exact absurd hr (List.not_mem_nil r)
    · split at hr
      · exact absurd hr (List.not_mem_nil r)
      · split at hr
        · exact absurd hr (List.not_mem_nil r)
        · split at hr
          · exact absurd hr (List.not_mem_nil r)
          · split at hr
            · exact absurd hr (List.not_mem_nil r)
            · split at hr
              · exact absurd hr (List.not_mem_nil r)
              · split at hr
                · exact absurd hr (List.not_mem_nil r)
                · rename_i tokv htokv
                  rw [h] at htokv
                  cases htokv
                  dsimp only at hr
                  split at hr <;> (try split at hr) <;>
                    (try simp only [reduceIte] at hr) <;> (try split at hr) <;>
                    (rw [ldmatrix_request_json_snd] at hr
                     simp only [List.mem_singleton] at hr
                     subst hr
                     refine ⟨?_, rfl⟩
                     first
                     | exact rfl
                     | simp +decide [dictGet, List.find?])

theorem token_query_param_scope_witness :
    ensure_token (some "tok") (fun _ => none) = .ok "tok" ∧
    (∀ att ∈ (http_request (fun _ _ => .resp 200 "OK" "x") (fun _ => none) (fun _ => none)
        ⟨"ldpair", [("var1", "rs1")], none, none, some "tok", DEFAULT_API_ROOT, "GET", 60⟩).2,
      dictGet att.req.params "token" = some "tok") ∧
    mat_get_token (some "tok") (fun _ => none) = .ok "tok" ∧
    (∀ r ∈ (ldmatrix (fun _ _ => .resp 200 "OK" "x") (fun _ => none) (fun _ => none)
        ⟨.list ["rs1"], "CEU", "r2", "grch37", some "tok", DEFAULT_API_ROOT, "raw", "auto"⟩).2,
      dictGet r.params "token" = none ∧
      r.headers = some [("Content-Type", "application/json"), ("Accept", "application/json"),
        ("Authorization", "Bearer " ++ "tok")]) :=
  ⟨rfl,
    token_query_param_scope.1 (fun _ _ => .resp 200 "OK" "x") (fun _ => none) (fun _ => none)
      ⟨"ldpair", [("var1", "rs1")], none, none, some "tok", DEFAULT_API_ROOT, "GET", 60⟩ "tok" rfl,
    rfl,
    token_query_param_scope.2.2 (fun _ _ => .resp 200 "OK" "x") (fun _ => none) (fun _ => none)
      ⟨.list ["rs1"], "CEU", "r2", "grch37", some "tok", DEFAULT_API_ROOT, "raw", "auto"⟩ "tok" rfl⟩

/-- C8 counterexample: for a concrete 404 on a POST dispatch through the
shared dispatcher, the raised message is exactly the string below — and
the HTTP method occurs nowhere in it, refuting the claim that the message
includes the method. -/
theorem http_error_message_omits_method :
    (http_request (fun _ _ => .resp 404 "Not Found" "oops") (fun _ => none) (fun _ => none)
      ⟨"ldpair", [], none, none, some "tok", DEFAULT_API_ROOT, "POST", 60⟩).1 =
      .error (.runtimeError ("LDlink request failed: HTTP 404 Not Found for " ++
        "https://ldlink.nih.gov/LDlinkRest/ldpair. Response: oops")) ∧
    ¬ ("POST".data <:+: ("LDlink request failed: HTTP 404 Not Found for " ++
        "https://ldlink.nih.gov/LDlinkRest/ldpair. Response: oops").data) :=
  ⟨rfl, by decide⟩

/-- C8 (amended): for a status of 400 or more the shared dispatcher raises
immediately with a message carrying the status code, the reason phrase,
the URL and a body snippet of at most 503 characters (500 plus the
ellipsis) — but not the HTTP method, which is not even an input of its
message builder; the `ldmatrix` dispatcher's message carries the status
code, the method and the URL but appends the entire stripped body with no
truncation. -/
theorem error_message_contents :
    (∀ (t : Transport) (jd : JsonDecoder) (env : Env) (a : HttpArgs) (tok : String)
        (status : ℕ) (reason body : String),
      ensure_token a.token env = .ok tok →
      t ⟨a.method, rstripChar '/' a.api_root ++ "/" ++ lstripChar '/' a.endpoint,
          dictSet a.params "token" tok, a.jsonBody, a.headers, a.timeout⟩ false =
        .resp status reason body →
      400 ≤ status →
      (http_request t jd env a).1 = .error (.runtimeError (raiseForStatusMsg status reason
        (rstripChar '/' a.api_root ++ "/" ++ lstripChar '/' a.endpoint) body))) ∧
    (∀ (status : ℕ) (reason url body : String), ∃ x y,
      raiseForStatusMsg status reason url body =
        x ++ toString status ++ " " ++ reason ++ y ++ url ++ ". Response: " ++
          statusSnippet body) ∧
    (∀ body : String, (statusSnippet body).data.length ≤ 503) ∧
    (∀ (status : ℕ) (method url body : String), (pyStrip body).data ≠ [] →
      ldmatrixFailMsg status method url body =
        ("LDlink request failed (" ++ toString status ++ ") for " ++ method ++ " " ++ url) ++
          (": " ++ pyStrip body)) := by
  refine ⟨?_, ?_, ?_, ?_⟩
  · intro t jd env a tok status reason body h ht hs
    unfold http_request
    rw [h]
    dsimp only
    rw [ht]
    dsimp only
    rw [if_pos hs]
  · intro status reason url body
    exact ⟨"LDlink request failed: HTTP ", " for ", by simp [raiseForStatusMsg, String.append_assoc]⟩
  · intro body
    unfold statusSnippet
    dsimp only
    split
    · dsimp only
      simp [List.length_append, List.length_take]
    · dsimp only
      rename_i hle
      simp only [Nat.not_lt] at hle
      omega
  · intro status method url body h
    unfold ldmatrixFailMsg
    rw [if_neg (by simpa using h)]
    simp [String.append_assoc]

theorem error_message_contents_witness :
    ensure_token (some "tok") (fun _ => none) = .ok "tok" ∧
    ((fun (_ : HttpReq) (_ : Bool) => TranspResult.resp 500 "Server Error" "bad") ⟨"POST",
        rstripChar '/' DEFAULT_API_ROOT ++ "/" ++ lstripChar '/' "ldpair",
        dictSet [] "token" "tok", none, none, 60⟩ false =
      .resp 500 "Server Error" "bad") ∧
    (http_request (fun _ _ => .resp 500 "Server Error" "bad") (fun _ => none) (fun _ => none)
      ⟨"ldpair", [], none, none, some "tok", DEFAULT_API_ROOT, "POST", 60⟩).1 =
      .error (.runtimeError (raiseForStatusMsg 500 "Server Error"
        (rstripChar '/' DEFAULT_API_ROOT ++ "/" ++ lstripChar '/' "ldpair") "bad")) ∧
    (pyStrip " body ").data ≠ [] ∧
    ldmatrixFailMsg 403 "GET" "https://x/ldmatrix" " body " =
      ("LDlink request failed (" ++ toString 403 ++ ") for " ++ "GET" ++ " " ++
        "https://x/ldmatrix") ++ (": " ++ pyStrip " body ") :=
  ⟨rfl, rfl,
    error_message_contents.1 (fun _ _ => .resp 500 "Server Error" "bad") (fun _ => none)
      (fun _ => none) ⟨"ldpair", [], none, none, some "tok", DEFAULT_API_ROOT, "POST", 60⟩
      "tok" 500 "Server Error" "bad" rfl rfl (by decide),
    by decide,
    error_message_contents.2.2.2 403 "GET" "https://x/ldmatrix" " body " (by decide)⟩

/-- C3: dispatch through the shared dispatcher makes at most two transport
attempts; a connection error on the first attempt triggers exactly one
retry, flagged with the IPv4-only resolver policy; a second connection
error is fatal with a single message embedding both underlying errors (and
that message literally contains both); and a response with HTTP status 400
or more fails immediately after the single attempt — it is never
retried. -/
theorem http_request_retry_policy :
    ∀ (t : Transport) (jd : JsonDecoder) (env : Env) (a : HttpArgs) (tok : String),
      ensure_token a.token env = .ok tok →
      ∀ req : HttpReq,
        req = ⟨a.method, rstripChar '/' a.api_root ++ "/" ++ lstripChar '/' a.endpoint,
          dictSet a.params "token" tok, a.jsonBody, a.headers, a.timeout⟩ →
        ((http_request t jd env a).2.length ≤ 2) ∧
        (∀ e, t req false = .connError e →
          (http_request t jd env a).2 = [⟨req, false⟩, ⟨req, true⟩]) ∧
        (∀ e e2, t req false = .connError e → t req true = .connError e2 →
          (http_request t jd env a).1 = .error (.runtimeError (connRetryMsg req.url e e2)) ∧
          ∃ x y z, connRetryMsg req.url e e2 = x ++ e ++ y ++ e2 ++ z) ∧
        (∀ (status : ℕ) (reason body : String), t req false = .resp status reason body →
          400 ≤ status →
          http_request t jd env a =
            (.error (.runtimeError (raiseForStatusMsg status reason req.url body)),
              [⟨req, false⟩])) := by
  intro t jd env a tok h req hreq
  subst hreq
  refine ⟨?_, ?_, ?_, ?_⟩
  · unfold http_request
    rw [h]
    dsimp only
    split
    · split
      · simp
      · split <;> simp
    · split <;> simp
  · intro e he
    unfold http_request
    rw [h]
    dsimp only
    rw [he]
    dsimp only
    split
    · rfl
    · split <;> rfl
  · intro e e2 he he2
    unfold http_request
    rw [h]
    dsimp only
    rw [he]
    dsimp only
    rw [he2]
    dsimp only
    exact ⟨rfl, "LDlink request failed due to connection error after IPv4 retry for " ++
      (rstripChar '/' a.api_root ++ "/" ++ lstripChar '/' a.endpoint) ++ ". Original error: ",
      "; Retry error: ", "", by simp [connRetryMsg, String.append_assoc]⟩
  · intro status reason body ht hs
    unfold http_request
    rw [h]
    dsimp only
    rw [ht]
    dsimp only
    rw [if_pos hs]

theorem http_request_retry_policy_witness :
    ensure_token (some "tok") (fun _ => none) = .ok "tok" ∧
    (let req : HttpReq := ⟨"GET", rstripChar '/' DEFAULT_API_ROOT ++ "/" ++ lstripChar '/' "ldpair",
      dictSet [] "token" "tok", none, none, 60⟩
    let t : Transport := fun _ ipv4 => .connError (if ipv4 then "err2" else "err1")
    (http_request t (fun _ => none) (fun _ => none)
        ⟨"ldpair", [], none, none, some "tok", DEFAULT_API_ROOT, "GET", 60⟩).2 =
      [⟨req, false⟩, ⟨req, true⟩] ∧
    (http_request t (fun _ => none) (fun _ => none)
        ⟨"ldpair", [], none, none, some "tok", DEFAULT_API_ROOT, "GET", 60⟩).1 =
      .error (.runtimeError (connRetryMsg req.url "err1" "err2"))) := by
  refine ⟨rfl, ?_, ?_⟩
  · exact (http_request_retry_policy
      (fun _ ipv4 => .connError (if ipv4 then "err2" else "err1")) (fun _ => none) (fun _ => none)
      ⟨"ldpair", [], none, none, some "tok", DEFAULT_API_ROOT, "GET", 60⟩ "tok" rfl _ rfl).2.1
      "err1" rfl
  · exact ((http_request_retry_policy
      (fun _ ipv4 => .connError (if ipv4 then "err2" else "err1")) (fun _ => none) (fun _ => none)
      ⟨"ldpair", [], none, none, some "tok", DEFAULT_API_ROOT, "GET", 60⟩ "tok" rfl _ rfl).2.2.1
      "err1" "err2" rfl rfl).1

theorem treach_same_lock_invariant (l : LockId) (s : TwoThreadState)
    (h : TReach l l s) :
    ((s.a = .holding ∨ s.a = .inTransport) → l ∈ s.held) ∧
    ((s.b = .holding ∨ s.b = .inTransport) → l ∈ s.held) ∧
    ¬((s.a = .holding ∨ s.a = .inTransport) ∧ (s.b = .holding ∨ s.b = .inTransport)) := by
  induction h with
  | init => simp
  | step s u hr hst ih =>
    rcases ih with ⟨iha, ihb, ihab⟩
    cases hst with
    | acquireA ha hl =>
      refine ⟨fun _ => List.mem_cons_self _ _, fun hb => List.mem_cons_of_mem _ (ihb hb), ?_⟩
      rintro ⟨-, hb⟩
      exact hl (ihb hb)
    | enterA ha =>
      exact ⟨fun _ => iha (Or.inl ha), ihb, fun hc => ihab ⟨Or.inl ha, hc.2⟩⟩
    | exitA ha =>
      refine ⟨?_, ?_, ?_⟩
      · rintro (h1 | h1) <;> cases h1
      · intro hb
        exact absurd ⟨Or.inr ha, hb⟩ ihab
      · rintro ⟨h1 | h1, -⟩ <;> cases h1
    | acquireB hb hl =>
      refine ⟨fun ha => List.mem_cons_of_mem _ (iha ha), fun _ => List.mem_cons_self _ _, ?_⟩
      rintro ⟨ha, -⟩
      exact hl (iha ha)
    | enterB hb =>
      exact ⟨iha, fun _ => ihb (Or.inl hb), fun hc => ihab ⟨hc.1, Or.inl hb⟩⟩
    | exitB hb =>
      refine ⟨?_, ?_, ?_⟩
      · intro ha
        exact absurd ⟨ha, Or.inr hb⟩ ihab
      · rintro (h1 | h1) <;> cases h1
      · rintro ⟨-, h1 | h1⟩ <;> cases h1

/-- C9 counterexample: the code has no single process-wide gate.  The
shared dispatcher and the `ldmatrix` dispatcher guard their transport
calls with two distinct locks, and under those two gates the interleaving
model reaches a state in which both callers are inside their transport
calls at the same instant. -/
theorem transport_overlap_reachable_with_code_locks :
    lockOf .httpRequest ≠ lockOf .ldmatrixRequestJson ∧
    lockOf .httpRequest ≠ lockOf (.clientRequest 0) ∧
    lockOf (.clientRequest 0) ≠ lockOf (.clientRequest 1) ∧
    TReach (lockOf .httpRequest) (lockOf .ldmatrixRequestJson)
      ⟨.inTransport, .inTransport, [lockOf .ldmatrixRequestJson, lockOf .httpRequest]⟩ := by
  refine ⟨by decide, by decide, by decide, ?_⟩
  have h0 : TReach (lockOf .httpRequest) (lockOf .ldmatrixRequestJson)
      ⟨.start, .start, []⟩ := .init
  have h1 := TReach.step _ _ h0 (TStep.acquireA _ rfl (by simp))
  have h2 := TReach.step _ _ h1 (TStep.enterA _ rfl)
  have h3 := TReach.step _ _ h2 (TStep.acquireB _ rfl (by simp +decide))
  exact TReach.step _ _ h3 (TStep.enterB _ rfl)

/-- C9 (amended): every transport call site acquires a gate around its
transport call and any two callers sharing one gate can never be inside
the transport at the same instant — but the gate is per call site, not
process-wide: `http.request`, `ldmatrix._request_json` and each
`LDlinkClient` instance own distinct locks, so calls through different
sites (or different client instances) are not serialized against each
other. -/
theorem per_gate_mutual_exclusion :
    (∀ l : LockId, ∀ s : TwoThreadState, TReach l l s →
      ¬(s.a = .inTransport ∧ s.b = .inTransport)) ∧
    lockOf .httpRequest = .httpModuleLock ∧
    lockOf .ldmatrixRequestJson = .ldmatrixModuleLock ∧
    (∀ i, lockOf (.clientRequest i) = .clientInstanceLock i) ∧
    lockOf .httpRequest ≠ lockOf .ldmatrixRequestJson := by
  refine ⟨?_, rfl, rfl, fun _ => rfl, by decide⟩
  intro l s h hboth
  exact (treach_same_lock_invariant l s h).2.2 ⟨Or.inr hboth.1, Or.inr hboth.2⟩

theorem per_gate_mutual_exclusion_witness :
    TReach LockId.httpModuleLock LockId.httpModuleLock ⟨.start, .start, []⟩ ∧
    ¬((⟨.start, .start, []⟩ : TwoThreadState).a = .inTransport ∧
      (⟨.start, .start, []⟩ : TwoThreadState).b = .inTransport) :=
  ⟨.init, per_gate_mutual_exclusion.1 LockId.httpModuleLock ⟨.start, .start, []⟩ .init⟩

/-! ### Lemmas about `splitRuns` (the `re.split` model) -/

theorem splitRuns_ne_nil (p : Char → Bool) (l : List Char) : splitRuns p l ≠ [] := by
  induction l with
  | nil => simp [splitRuns]
  | cons c t ih =>
    unfold splitRuns
    dsimp only
    split
    · split
      · simp
      · split
        · exact ih
        · simp
    · split <;> simp

theorem splitRuns_token_prepend (p : Char → Bool) (tk rest : List Char)
    (hne : tk ≠ []) (hfree : ∀ c ∈ tk, p c = false) :
    splitRuns p (tk ++ rest) =
      (tk ++ (splitRuns p rest).headD []) :: (splitRuns p rest).tail := by
  induction tk with
  | nil => exact absurd rfl hne
  | cons c tk2 ih =>
    obtain ⟨h, tl, hrw⟩ := List.exists_cons_of_ne_nil (splitRuns_ne_nil p rest)
    have hc : p c = false := hfree c (List.mem_cons_self c tk2)
    cases tk2 with
    | nil =>
      simp only [List.cons_append, List.nil_append]
      conv =>
        lhs
        unfold splitRuns
      rw [hc]
      dsimp only
      rw [hrw]
      simp
    | cons d tk3 =>
      have ih2 := ih (by simp) (fun x hx => hfree x (List.mem_cons_of_mem c hx))
      simp only [List.cons_append] at ih2 ⊢
      conv =>
        lhs
        unfold splitRuns
      rw [hc]
      dsimp only
      rw [ih2]
      simp

theorem splitRuns_sep_cons (p : Char → Bool) (m : List Char) :
    ∀ c : Char, p c = true → splitRuns p (c :: m) = [] :: splitRuns p (m.dropWhile p) := by
  induction m with
  | nil =>
    intro c hc
    unfold splitRuns
    rw [hc]
    rfl
  | cons d m2 ih =>
    intro c hc
    by_cases hd : p d = true
    · conv =>
        lhs
        unfold splitRuns
      rw [hc]
      simp only [reduceIte]
      rw [hd]
      simp only [reduceIte]
      rw [List.dropWhile_cons, if_pos hd]
      exact ih d hd
    · have hd2 : p d = false := Bool.eq_false_iff.mpr hd
      conv =>
        lhs
        unfold splitRuns
      rw [hc]
      simp only [reduceIte]
      rw [hd2]
      rw [List.dropWhile_cons, if_neg hd]
      simp

theorem dropWhile_sep_append (p : Char → Bool) (w m : List Char)
    (hw : ∀ c ∈ w, p c = true) : (w ++ m).dropWhile p = m.dropWhile p := by
  induction w with
  | nil => rfl
  | cons c w2 ih =>
    rw [List.cons_append, List.dropWhile_cons, if_pos (hw c (List.mem_cons_self c w2))]
    exact ih (fun x hx => hw x (List.mem_cons_of_mem c hx))

theorem splitRuns_run_prepend (p : Char → Bool) (w m : List Char)
    (hne : w ≠ []) (hw : ∀ c ∈ w, p c = true) :
    splitRuns p (w ++ m) = [] :: splitRuns p (m.dropWhile p) := by
  obtain ⟨c, w2, rfl⟩ := List.exists_cons_of_ne_nil hne
  rw [List.cons_append, splitRuns_sep_cons p _ c (hw c (List.mem_cons_self c w2)),
    dropWhile_sep_append p w2 m (fun x hx => hw x (List.mem_cons_of_mem c hx))]

theorem splitRuns_all_sep (p : Char → Bool) (w : List Char) (hw : ∀ c ∈ w, p c = true) :
    splitRuns p w = [[]] ∨ splitRuns p w = [[], []] := by
  cases w with
  | nil => exact Or.inl rfl
  | cons c w2 =>
    right
    rw [splitRuns_sep_cons p w2 c (hw c (List.mem_cons_self c w2))]
    rw [show w2.dropWhile p = [] from List.dropWhile_eq_nil_iff.mpr
      (fun x hx => by simp [hw x (List.mem_cons_of_mem c hx)])]
    rfl

theorem tokensOf_assembled (p : Char → Bool) :
    ∀ (ps : List (List Char × List Char)) (t0 trail : List Char),
      t0 ≠ [] → (∀ c ∈ t0, p c = false) →
      (∀ q ∈ ps, (q.1 ≠ [] ∧ ∀ c ∈ q.1, p c = true) ∧
        (q.2 ≠ [] ∧ ∀ c ∈ q.2, p c = false)) →
      (∀ c ∈ trail, p c = true) →
      tokensOf p (t0 ++ (ps.map (fun q => q.1 ++ q.2)).flatten ++ trail) =
        t0 :: ps.map (fun q => q.2) := by
  intro ps
  induction ps with
  | nil =>
    intro t0 trail hne hfree _ htrail
    simp only [List.map_nil, List.flatten_nil, List.append_nil]
    unfold tokensOf
    rw [splitRuns_token_prepend p t0 trail hne hfree]
    rcases splitRuns_all_sep p trail htrail with h | h <;>
      · rw [h]
        simp [hne]
  | cons q ps2 ih =>
    intro t0 trail hne hfree hps htrail
    obtain ⟨⟨hr_ne, hr_sep⟩, hk_ne, hk_free⟩ := hps q (List.mem_cons_self q ps2)
    have hrest := fun x hx => hps x (List.mem_cons_of_mem q hx)
    unfold tokensOf
    have hY : splitRuns p (q.1 ++ (q.2 ++ (ps2.map (fun r => r.1 ++ r.2)).flatten ++ trail)) =
        [] :: splitRuns p (q.2 ++ (ps2.map (fun r => r.1 ++ r.2)).flatten ++ trail) := by
      rw [splitRuns_run_prepend p _ _ hr_ne hr_sep]
      have hdw : List.dropWhile p (q.2 ++ (ps2.map (fun r => r.1 ++ r.2)).flatten ++ trail) =
          q.2 ++ (ps2.map (fun r => r.1 ++ r.2)).flatten ++ trail := by
        obtain ⟨d, k2, hdk⟩ := List.exists_cons_of_ne_nil hk_ne
        rw [hdk, List.cons_append, List.cons_append, List.dropWhile_cons,
          if_neg (by simp [hk_free d (by rw [hdk]; exact List.mem_cons_self d k2)])]
      rw [hdw]
    have hassoc : t0 ++ ((q.1 ++ q.2) :: ps2.map (fun r => r.1 ++ r.2)).flatten ++ trail =
        t0 ++ (q.1 ++ (q.2 ++ (ps2.map (fun r => r.1 ++ r.2)).flatten ++ trail)) := by
      simp [List.append_assoc]
    rw [List.map_cons, hassoc, splitRuns_token_prepend p t0 _ hne hfree, hY]
    have ihx := ih q.2 trail hk_ne hk_free hrest htrail
    unfold tokensOf at ihx
    simp only [List.headD_cons, List.tail_cons, List.filter_cons]
    rw [if_pos (by simp [hne])]
    simp only [List.append_nil]
    rw [ihx]
    simp

theorem dropWhile_eq_self_of_none (p : Char → Bool) (t : List Char)
    (h : ∀ c ∈ t, p c = false) : t.dropWhile p = t := by
  cases t with
  | nil => rfl
  | cons c t2 => rw [List.dropWhile_cons, if_neg (by simp [h c (List.mem_cons_self c t2)])]

theorem stripL_of_no_ws (t : List Char) (h : ∀ c ∈ t, wsChar c = false) : stripL t = t := by
  unfold stripL
  rw [dropWhile_eq_self_of_none _ _ h,
    dropWhile_eq_self_of_none _ _ (fun c hc => h c (List.mem_reverse.mp hc)),
    List.reverse_reverse]

theorem dropWhile_append_fixed (p : Char → Bool) (a b : List Char)
    (hb : b.dropWhile p = b) : (a ++ b).dropWhile p = a.dropWhile p ++ b := by
  induction a with
  | nil => simpa using hb
  | cons c a2 ih =>
    by_cases hc : p c = true
    · rw [List.cons_append, List.dropWhile_cons, if_pos hc, List.dropWhile_cons, if_pos hc, ih]
    · rw [List.cons_append, List.dropWhile_cons, if_neg hc, List.dropWhile_cons, if_neg hc,
        List.cons_append]

theorem splitRuns_tokens_free (p : Char → Bool) :
    ∀ l : List Char, ∀ x ∈ splitRuns p l, ∀ c ∈ x, p c = false := by
  intro l
  induction l with
  | nil =>
    intro x hx c hc
    simp [splitRuns] at hx
    subst hx
    cases hc
  | cons c t ih =>
    intro x hx d hd
    obtain ⟨h, tl, hrw⟩ := List.exists_cons_of_ne_nil (splitRuns_ne_nil p t)
    unfold splitRuns at hx
    dsimp only at hx
    by_cases hc : p c = true
    · rw [if_pos hc] at hx
      cases t with
      | nil =>
        simp [splitRuns] at hx
        subst hx
        cases hd
      | cons e t2 =>
        dsimp only at hx
        by_cases he : p e = true
        · rw [if_pos he] at hx
          exact ih x hx d hd
        · rw [if_neg he] at hx
          rcases List.mem_cons.mp hx with hx | hx
          · subst hx
            cases hd
          · exact ih x hx d hd
    · rw [if_neg hc] at hx
      rw [hrw] at hx
      rcases List.mem_cons.mp hx with hx | hx
      · subst hx
        rcases List.mem_cons.mp hd with hd | hd
        · subst hd
          exact Bool.eq_false_iff.mpr hc
        · exact ih h (hrw ▸ List.mem_cons_self _ _) d hd
      · exact ih x (hrw ▸ List.mem_cons_of_mem _ hx) d hd

/-- The worker characterization of `normalize_snps` on strings: strip the
input, split on separator runs, drop the empty pieces — the in-code
per-token strips and double filter are the identity on the run-split
pieces, which never contain separator (hence whitespace) characters. -/
theorem normalize_snps_str_eq (l : List Char) :
    normalize_snps (.str ⟨l⟩) =
      (if (tokensOf snpSepChar (stripL l)).isEmpty then
        .error (.validationError "No SNPs provided after normalization.")
      else .ok ((tokensOf snpSepChar (stripL l)).map (fun t => (⟨t⟩ : String)))) := by
  have hmem : ∀ x ∈ splitRuns snpSepChar (stripL l), stripL x = x := by
    intro x hx
    refine stripL_of_no_ws x (fun c hc => ?_)
    have := splitRuns_tokens_free snpSepChar (stripL l) x hx c hc
    unfold snpSepChar at this
    simp only [Bool.or_eq_false_iff] at this
    exact this.2
  unfold normalize_snps
  dsimp only
  by_cases hraw : (stripL l).isEmpty
  · have hstrip : stripL l = [] := by simpa using hraw
    simp only [hstrip]
    rfl
  · rw [if_neg hraw]
    have hfilter1 : (splitRuns snpSepChar (stripL l)).filter
        (fun t => !t.isEmpty && !(stripL t).isEmpty) =
        (splitRuns snpSepChar (stripL l)).filter (fun t => !t.isEmpty) := by
      refine List.filter_congr (fun x hx => ?_)
      rw [hmem x hx, Bool.and_self]
    have hfilter2 : ((splitRuns snpSepChar (stripL l)).filter (fun t => !t.isEmpty)).filter
        (fun t => !(stripL t).isEmpty) =
        (splitRuns snpSepChar (stripL l)).filter (fun t => !t.isEmpty) := by
      rw [List.filter_congr (fun x hx => by
        rw [hmem x (List.mem_of_mem_filter hx)])]
      rw [List.filter_filter]
      exact List.filter_congr (fun x _ => Bool.and_self _)
    rw [hfilter1, hfilter2]
    have hmap : ((splitRuns snpSepChar (stripL l)).filter (fun t => !t.isEmpty)).map stripL =
        (splitRuns snpSepChar (stripL l)).filter (fun t => !t.isEmpty) := by
      rw [List.map_congr_left (fun x hx => hmem x (List.mem_of_mem_filter hx))]
      simp
    rw [hmap]
    rfl

theorem mem_of_mem_dropWhile (p : Char → Bool) (x : Char) :
    ∀ l : List Char, x ∈ l.dropWhile p → x ∈ l := by
  intro l
  induction l with
  | nil => exact fun h => h
  | cons c t ih =>
    rw [List.dropWhile_cons]
    split
    · exact fun h => List.mem_cons_of_mem c (ih h)
    · exact fun h => h

theorem sep_false_ws_false (c : Char) (h : snpSepChar c = false) : wsChar c = false := by
  unfold snpSepChar at h
  simp only [Bool.or_eq_false_iff] at h
  tauto

theorem assembled_reverse_head (p : Char → Bool) :
    ∀ (ps : List (List Char × List Char)) (t0 : List Char),
      t0 ≠ [] → (∀ c ∈ t0, p c = false) →
      (∀ q ∈ ps, q.2 ≠ [] ∧ ∀ c ∈ q.2, p c = false) →
      ∃ c y, (t0 ++ (ps.map (fun q => q.1 ++ q.2)).flatten).reverse = c :: y ∧ p c = false := by
  intro ps
  induction ps with
  | nil =>
    intro t0 hne hfree _
    have hrne : t0.reverse ≠ [] := by simpa using hne
    obtain ⟨c, y, hcy⟩ := List.exists_cons_of_ne_nil hrne
    refine ⟨c, y, by simpa using hcy, hfree c (List.mem_reverse.mp (hcy ▸ List.mem_cons_self c y))⟩
  | cons q ps2 ih =>
    intro t0 hne hfree hps
    obtain ⟨c, y, hcy, hc⟩ := ih q.2 (hps q (List.mem_cons_self q ps2)).1
      (hps q (List.mem_cons_self q ps2)).2 (fun x hx => hps x (List.mem_cons_of_mem q hx))
    refine ⟨c, y ++ (q.1.reverse ++ t0.reverse), ?_, hc⟩
    have : t0 ++ (((q :: ps2).map (fun r => r.1 ++ r.2)).flatten) =
        (t0 ++ q.1) ++ (q.2 ++ ((ps2.map (fun r => r.1 ++ r.2)).flatten)) := by
      simp [List.append_assoc]
    rw [this, List.reverse_append, hcy]
    simp [List.append_assoc]

/-- Stripping whitespace from an assembled separator/token string only
shortens the separator runs at the two ends. -/
theorem stripL_assembled (lead X trail : List Char)
    (hx1 : ∃ c y, X = c :: y ∧ wsChar c = false)
    (hx2 : ∃ c y, X.reverse = c :: y ∧ wsChar c = false) :
    stripL (lead ++ X ++ trail) =
      lead.dropWhile wsChar ++ X ++ ((trail.reverse.dropWhile wsChar).reverse) := by
  obtain ⟨c1, y1, hX, hc1⟩ := hx1
  obtain ⟨c2, y2, hXr, hc2⟩ := hx2
  unfold stripL
  have hfix : (X ++ trail).dropWhile wsChar = X ++ trail := by
    rw [hX, List.cons_append, List.dropWhile_cons, if_neg (by simp [hc1])]
  rw [List.append_assoc, dropWhile_append_fixed wsChar lead (X ++ trail) hfix]
  have hrev : (lead.dropWhile wsChar ++ (X ++ trail)).reverse =
      trail.reverse ++ (X.reverse ++ (lead.dropWhile wsChar).reverse) := by
    simp [List.reverse_append, List.append_assoc]
  rw [hrev]
  have hfix2 : (X.reverse ++ (lead.dropWhile wsChar).reverse).dropWhile wsChar =
      X.reverse ++ (lead.dropWhile wsChar).reverse := by
    rw [hXr, List.cons_append, List.dropWhile_cons, if_neg (by simp [hc2])]
  rw [dropWhile_append_fixed wsChar trail.reverse _ hfix2]
  simp [List.reverse_append, List.append_assoc]

theorem tokensOf_sep_prefix (p : Char → Bool) (w rest : List Char)
    (hw : ∀ c ∈ w, p c = true) (hhead : ∃ c y, rest = c :: y ∧ p c = false) :
    tokensOf p (w ++ rest) = tokensOf p rest := by
  obtain ⟨c, y, hrest, hc⟩ := hhead
  cases w with
  | nil => rfl
  | cons e w2 =>
    unfold tokensOf
    rw [splitRuns_run_prepend p (e :: w2) rest (by simp) hw, hrest, List.dropWhile_cons,
      if_neg (by simp [hc])]
    simp

theorem tokensOf_all_sep (p : Char → Bool) (w : List Char) (hw : ∀ c ∈ w, p c = true) :
    tokensOf p w = [] := by
  unfold tokensOf
  rcases splitRuns_all_sep p w hw with h | h <;> rw [h] <;> rfl

theorem mem_stripL (x : Char) (l : List Char) (h : x ∈ stripL l) : x ∈ l := by
  unfold stripL at h
  exact mem_of_mem_dropWhile wsChar x l
    (List.mem_reverse.mp (List.mem_reverse.mp h |> mem_of_mem_dropWhile wsChar x _))

theorem normalize_snps_assembled (lead trail t0 : List Char)
    (ps : List (List Char × List Char))
    (hlead : ∀ c ∈ lead, snpSepChar c = true) (htrail : ∀ c ∈ trail, snpSepChar c = true)
    (hne : t0 ≠ []) (hfree : ∀ c ∈ t0, snpSepChar c = false)
    (hps : ∀ q ∈ ps, (q.1 ≠ [] ∧ ∀ c ∈ q.1, snpSepChar c = true) ∧
      (q.2 ≠ [] ∧ ∀ c ∈ q.2, snpSepChar c = false)) :
    normalize_snps (.str ⟨lead ++ (t0 ++ (ps.map (fun q => q.1 ++ q.2)).flatten) ++ trail⟩) =
      .ok ((t0 :: ps.map (fun q => q.2)).map (fun tk => (⟨tk⟩ : String))) := by
  obtain ⟨c1, y1, ht0⟩ := List.exists_cons_of_ne_nil hne
  have hc1 : wsChar c1 = false :=
    sep_false_ws_false c1 (hfree c1 (ht0 ▸ List.mem_cons_self c1 y1))
  have hc1s : snpSepChar c1 = false := hfree c1 (ht0 ▸ List.mem_cons_self c1 y1)
  obtain ⟨c2, y2, hrev, hc2s⟩ := assembled_reverse_head snpSepChar ps t0 hne hfree
    (fun q hq => (hps q hq).2)
  have hstrip := stripL_assembled lead (t0 ++ (ps.map (fun q => q.1 ++ q.2)).flatten) trail
    ⟨c1, y1 ++ (ps.map (fun q => q.1 ++ q.2)).flatten, by rw [ht0]; rfl, hc1⟩
    ⟨c2, y2, hrev, sep_false_ws_false c2 hc2s⟩
  rw [normalize_snps_str_eq, hstrip]
  have hlead2 : ∀ c ∈ lead.dropWhile wsChar, snpSepChar c = true :=
    fun c hc => hlead c (mem_of_mem_dropWhile wsChar c lead hc)
  have htrail2 : ∀ c ∈ (trail.reverse.dropWhile wsChar).reverse, snpSepChar c = true :=
    fun c hc => htrail c (List.mem_reverse.mp
      (mem_of_mem_dropWhile wsChar c trail.reverse (List.mem_reverse.mp hc)))
  have hassoc : lead.dropWhile wsChar ++ (t0 ++ (ps.map (fun q => q.1 ++ q.2)).flatten) ++
      (trail.reverse.dropWhile wsChar).reverse =
      lead.dropWhile wsChar ++ ((t0 ++ (ps.map (fun q => q.1 ++ q.2)).flatten) ++
        (trail.reverse.dropWhile wsChar).reverse) := by
    simp [List.append_assoc]
  rw [hassoc, tokensOf_sep_prefix snpSepChar _ _ hlead2
    ⟨c1, (y1 ++ (ps.map (fun q => q.1 ++ q.2)).flatten) ++
      (trail.reverse.dropWhile wsChar).reverse, by rw [ht0]; simp [List.append_assoc], hc1s⟩,
    tokensOf_assembled snpSepChar ps t0 _ hne hfree hps htrail2]
  rfl

theorem normalize_snps_all_sep (s : String) (h : ∀ c ∈ s.data, snpSepChar c = true) :
    normalize_snps (.str s) = .error (.validationError "No SNPs provided after normalization.") := by
  have := normalize_snps_str_eq s.data
  rw [show (⟨s.data⟩ : String) = s from rfl] at this
  rw [this, tokensOf_all_sep snpSepChar (stripL s.data)
    (fun c hc => h c (mem_stripL c s.data hc))]
  rfl

theorem splitOnChar_ne_nil (sep : Char) (l : List Char) : splitOnChar sep l ≠ [] := by
  induction l with
  | nil => simp [splitOnChar]
  | cons c t ih =>
    unfold splitOnChar
    split
    · simp
    · split <;> simp

theorem splitOnChar_token_prepend (sep : Char) (tk rest : List Char)
    (hfree : ∀ c ∈ tk, (c == sep) = false) :
    splitOnChar sep (tk ++ rest) =
      (tk ++ (splitOnChar sep rest).headD []) :: (splitOnChar sep rest).tail := by
  obtain ⟨h, tl, hrw⟩ := List.exists_cons_of_ne_nil (splitOnChar_ne_nil sep rest)
  induction tk with
  | nil =>
    simp only [List.nil_append, hrw]
    rfl
  | cons c tk2 ih =>
    have hc : (c == sep) = false := hfree c (List.mem_cons_self c tk2)
    have ih2 := ih (fun x hx => hfree x (List.mem_cons_of_mem c hx))
    rw [List.cons_append]
    conv =>
      lhs
      unfold splitOnChar
    rw [if_neg (by simp [hc])]
    rw [ih2]
    simp

theorem splitOnChar_run_prepend (sep : Char) :
    ∀ (w rest : List Char), (∀ c ∈ w, (c == sep) = true) →
      splitOnChar sep (w ++ rest) = List.replicate w.length [] ++ splitOnChar sep rest := by
  intro w
  induction w with
  | nil => intro rest _; rfl
  | cons c w2 ih =>
    intro rest hw
    rw [List.cons_append]
    conv =>
      lhs
      unfold splitOnChar
    rw [hw c (List.mem_cons_self c w2)]
    simp only [reduceIte]
    rw [ih rest (fun x hx => hw x (List.mem_cons_of_mem c hx))]
    rfl

theorem filter_strip_all_nil (l : List (List Char)) (h : ∀ x ∈ l, x = []) :
    l.filter (fun x => !(stripL x).isEmpty) = [] := by
  induction l with
  | nil => rfl
  | cons x t ih =>
    rw [List.filter_cons, if_neg (by rw [h x (List.mem_cons_self x t)]; simp [stripL])]
    exact ih (fun y hy => h y (List.mem_cons_of_mem x hy))

theorem matFilter_sep_prefix (a : ℕ) (rest : List Char) :
    ((splitOnChar ' ' (List.replicate a ' ' ++ rest)).filter
      (fun x => !(stripL x).isEmpty)).map stripL =
    ((splitOnChar ' ' rest).filter (fun x => !(stripL x).isEmpty)).map stripL := by
  rw [splitOnChar_run_prepend ' ' (List.replicate a ' ') rest
    (fun c hc => by rw [List.eq_of_mem_replicate hc]; rfl)]
  rw [List.length_replicate, List.filter_append, filter_strip_all_nil _ (fun x hx => by
    simpa using List.eq_of_mem_replicate hx)]
  rfl

theorem mat_tokens_assembled :
    ∀ (ps : List (ℕ × List Char)) (t0 : List Char) (b : ℕ),
      t0 ≠ [] → (∀ c ∈ t0, wsChar c = false) →
      (∀ q ∈ ps, 1 ≤ q.1 ∧ q.2 ≠ [] ∧ ∀ c ∈ q.2, wsChar c = false) →
      ((splitOnChar ' ' (t0 ++ (ps.map (fun q => List.replicate q.1 ' ' ++ q.2)).flatten ++
        List.replicate b ' ')).filter (fun x => !(stripL x).isEmpty)).map stripL =
      t0 :: ps.map (fun q => q.2) := by
  intro ps
  induction ps with
  | nil =>
    intro t0 b hne hfree _
    simp only [List.map_nil, List.flatten_nil, List.append_nil]
    rw [splitOnChar_token_prepend ' ' t0 _ (fun c hc => by
      have := hfree c hc
      unfold wsChar at this
      simp only [Bool.or_eq_false_iff] at this
      tauto)]
    rw [show List.replicate b ' ' = List.replicate b ' ' ++ [] from by simp,
      splitOnChar_run_prepend ' ' (List.replicate b ' ') []
        (fun c hc => by rw [List.eq_of_mem_replicate hc]; rfl)]
    simp only [List.length_replicate]
    have hstrip : stripL t0 = t0 := stripL_of_no_ws t0 hfree
    cases b with
    | zero =>
      simp only [List.replicate, List.nil_append]
      rw [show splitOnChar ' ' [] = [[]] from rfl]
      simp [List.filter_cons, hstrip, hne]
    | succ b2 =>
      rw [show List.replicate (b2 + 1) [] ++ splitOnChar ' ' [] =
        [] :: (List.replicate b2 [] ++ [[]]) from by simp [List.replicate_succ, splitOnChar]]
      simp only [List.headD_cons, List.tail_cons, List.append_nil]
      rw [List.filter_cons, if_pos (by simp [hstrip, hne]),
        filter_strip_all_nil _ (fun x hx => by
          rcases List.mem_append.mp hx with hx | hx
          · simpa using List.eq_of_mem_replicate hx
          · simpa using hx)]
      simp [hstrip]
  | cons q ps2 ih =>
    intro t0 b hne hfree hps
    obtain ⟨hq1, hq2ne, hq2free⟩ := hps q (List.mem_cons_self q ps2)
    have hrest := fun x hx => hps x (List.mem_cons_of_mem q hx)
    obtain ⟨n2, hn2⟩ := Nat.exists_eq_add_of_le hq1
    have hassoc : t0 ++ ((q :: ps2).map (fun r => List.replicate r.1 ' ' ++ r.2)).flatten ++
        List.replicate b ' ' =
        t0 ++ (List.replicate q.1 ' ' ++ (q.2 ++
          (ps2.map (fun r => List.replicate r.1 ' ' ++ r.2)).flatten ++ List.replicate b ' ')) := by
      simp [List.append_assoc]
    rw [hassoc, splitOnChar_token_prepend ' ' t0 _ (fun c hc => by
      have := hfree c hc
      unfold wsChar at this
      simp only [Bool.or_eq_false_iff] at this
      tauto)]
    rw [splitOnChar_run_prepend ' ' (List.replicate q.1 ' ') _
      (fun c hc => by rw [List.eq_of_mem_replicate hc]; rfl)]
    simp only [List.length_replicate]
    rw [hn2, show List.replicate (1 + n2) ([] : List Char) = [] :: List.replicate n2 [] from by
      rw [Nat.add_comm]; simp [List.replicate_succ]]
    simp only [List.cons_append, List.headD_cons, List.tail_cons, List.append_nil]
    have hstrip : stripL t0 = t0 := stripL_of_no_ws t0 hfree
    rw [List.filter_cons, if_pos (by simp [hstrip, hne]), List.filter_append,
      filter_strip_all_nil (List.replicate n2 []) (fun x hx => by
        simpa using List.eq_of_mem_replicate hx)]
    have ihx := ih q.2 b hq2ne hq2free hrest
    simp only [List.nil_append, List.map_cons]
    rw [show q.2 ++ (ps2.map (fun r => List.replicate r.1 ' ' ++ r.2)).flatten ++
      List.replicate b ' ' = q.2 ++ ((ps2.map (fun r => List.replicate r.1 ' ' ++ r.2)).flatten ++
        List.replicate b ' ') from by simp [List.append_assoc]] at ihx ⊢
    rw [ihx]
    simp [hstrip]

theorem mat_sep_false (c : Char) (hw : wsChar c = false) (hc : (c == ',') = false) :
    matSepChar c = false := by
  unfold wsChar at hw
  unfold matSepChar
  simp only [Bool.or_eq_false_iff] at hw ⊢
  tauto

theorem map_sigma_token (tk : List Char)
    (h : ∀ c ∈ tk, wsChar c = false ∧ (c == ',') = false) :
    tk.map (fun c => if matSepChar c then ' ' else c) = tk := by
  rw [List.map_congr_left (fun c hc => by
    rw [if_neg (by simp [mat_sep_false c (h c hc).1 (h c hc).2])])]
  exact List.map_id tk

theorem map_sigma_run (w : List Char) (h : ∀ c ∈ w, matSepChar c = true ∨ c = ' ') :
    w.map (fun c => if matSepChar c then ' ' else c) = List.replicate w.length ' ' := by
  induction w with
  | nil => rfl
  | cons c w2 ih =>
    rw [List.map_cons, List.length_cons, List.replicate_succ,
      ih (fun x hx => h x (List.mem_cons_of_mem c hx))]
    rcases h c (List.mem_cons_self c w2) with hc | hc
    · rw [if_pos hc]
    · subst hc
      rw [ite_self]

theorem map_sigma_flat (ps : List (List Char × List Char))
    (h : ∀ q ∈ ps, (∀ c ∈ q.1, matSepChar c = true ∨ c = ' ') ∧
      (∀ c ∈ q.2, wsChar c = false ∧ (c == ',') = false)) :
    ((ps.map (fun q => q.1 ++ q.2)).flatten).map (fun c => if matSepChar c then ' ' else c) =
      ((ps.map (fun q => (q.1.length, q.2))).map
        (fun q => List.replicate q.1 ' ' ++ q.2)).flatten := by
  induction ps with
  | nil => rfl
  | cons q ps2 ih =>
    simp only [List.map_cons, List.flatten_cons, List.map_append]
    rw [map_sigma_run q.1 (h q (List.mem_cons_self q ps2)).1,
      map_sigma_token q.2 (h q (List.mem_cons_self q ps2)).2,
      ih (fun x hx => h x (List.mem_cons_of_mem q hx))]

theorem mat_normalize_assembled (lead trail t0 : List Char)
    (ps : List (List Char × List Char))
    (hlead : ∀ c ∈ lead, matSepChar c = true ∨ c = ' ')
    (htrail : ∀ c ∈ trail, matSepChar c = true ∨ c = ' ')
    (hne : t0 ≠ []) (hfree : ∀ c ∈ t0, wsChar c = false ∧ (c == ',') = false)
    (hps : ∀ q ∈ ps, (q.1 ≠ [] ∧ ∀ c ∈ q.1, matSepChar c = true ∨ c = ' ') ∧
      (q.2 ≠ [] ∧ ∀ c ∈ q.2, wsChar c = false ∧ (c == ',') = false)) :
    mat_normalize_snps (.str ⟨lead ++ (t0 ++ (ps.map (fun q => q.1 ++ q.2)).flatten) ++ trail⟩) =
      .ok ((t0 :: ps.map (fun q => q.2)).map (fun tk => (⟨tk⟩ : String))) := by
  unfold mat_normalize_snps
  dsimp only
  rw [List.map_append, List.map_append, List.map_append]
  rw [map_sigma_run lead hlead, map_sigma_run trail htrail,
    map_sigma_token t0 hfree, map_sigma_flat ps (fun q hq => ⟨(hps q hq).1.2, (hps q hq).2.2⟩)]
  have hassoc : List.replicate lead.length ' ' ++
      (t0 ++ ((ps.map (fun q => (q.1.length, q.2))).map
        (fun q => List.replicate q.1 ' ' ++ q.2)).flatten) ++ List.replicate trail.length ' ' =
      List.replicate lead.length ' ' ++
      ((t0 ++ ((ps.map (fun q => (q.1.length, q.2))).map
        (fun q => List.replicate q.1 ' ' ++ q.2)).flatten) ++ List.replicate trail.length ' ') := by
    simp [List.append_assoc]
  rw [hassoc, matFilter_sep_prefix lead.length _,
    mat_tokens_assembled (ps.map (fun q => (q.1.length, q.2))) t0 trail.length hne
      (fun c hc => (hfree c hc).1)
      (fun q hq => by
        obtain ⟨x, hx, hxq⟩ := List.mem_map.mp hq
        obtain ⟨⟨hx1, _⟩, hx2, hx3⟩ := hps x hx
        subst hxq
        exact ⟨List.length_pos.mpr hx1, hx2, fun c hc => (hx3 c hc).1⟩)]
  rw [show ((ps.map (fun q => (q.1.length, q.2))).map (fun q => q.2)) =
    ps.map (fun q => q.2) from by rw [List.map_map]; rfl]
  rfl

/-- C7 counterexample: `ldmatrix`'s own normalizer does not split on a
semicolon — `"rs1;rs2"` stays one token — refuting the claim that every
single-string identifier input is split on runs of whitespace, comma,
semicolon, pipe, or plus by the input normalizer. -/
theorem ldmatrix_normalizer_keeps_semicolon :
    mat_normalize_snps (.str "rs1;rs2") = .ok ["rs1;rs2"] ∧
    mat_normalize_snps (.str "rs1;rs2") ≠ .ok ["rs1", "rs2"] := by
  exact ⟨by decide, by decide⟩

/-- C7 (amended): `validators.normalize_snps` splits a single string on
every run of whitespace, comma, semicolon, pipe or plus characters, trims,
drops the empty pieces, preserves order and duplicates, and raises a
validation error when no token remains; the private `_normalize_snps` of
the `ldmatrix` endpoint instead splits only on runs of space, tab, CR, LF
or comma, leaving semicolon, pipe and plus characters inside tokens. -/
theorem snp_normalizer_separator_behavior :
    (∀ (lead trail t0 : List Char) (ps : List (List Char × List Char)),
      (∀ c ∈ lead, snpSepChar c = true) → (∀ c ∈ trail, snpSepChar c = true) →
      t0 ≠ [] → (∀ c ∈ t0, snpSepChar c = false) →
      (∀ q ∈ ps, (q.1 ≠ [] ∧ ∀ c ∈ q.1, snpSepChar c = true) ∧
        (q.2 ≠ [] ∧ ∀ c ∈ q.2, snpSepChar c = false)) →
      normalize_snps (.str ⟨lead ++ (t0 ++ (ps.map (fun q => q.1 ++ q.2)).flatten) ++ trail⟩) =
        .ok ((t0 :: ps.map (fun q => q.2)).map (fun tk => (⟨tk⟩ : String)))) ∧
    (∀ s : String, (∀ c ∈ s.data, snpSepChar c = true) →
      normalize_snps (.str s) =
        .error (.validationError "No SNPs provided after normalization.")) ∧
    (∀ (lead trail t0 : List Char) (ps : List (List Char × List Char)),
      (∀ c ∈ lead, matSepChar c = true ∨ c = ' ') →
      (∀ c ∈ trail, matSepChar c = true ∨ c = ' ') →
      t0 ≠ [] → (∀ c ∈ t0, wsChar c = false ∧ (c == ',') = false) →
      (∀ q ∈ ps, (q.1 ≠ [] ∧ ∀ c ∈ q.1, matSepChar c = true ∨ c = ' ') ∧
        (q.2 ≠ [] ∧ ∀ c ∈ q.2, wsChar c = false ∧ (c == ',') = false)) →
      mat_normalize_snps (.str ⟨lead ++ (t0 ++ (ps.map (fun q => q.1 ++ q.2)).flatten) ++ trail⟩) =
        .ok ((t0 :: ps.map (fun q => q.2)).map (fun tk => (⟨tk⟩ : String)))) :=
  ⟨fun lead trail t0 ps h1 h2 h3 h4 h5 => normalize_snps_assembled lead trail t0 ps h1 h2 h3 h4 h5,
    fun s h => normalize_snps_all_sep s h,
    fun lead trail t0 ps h1 h2 h3 h4 h5 => mat_normalize_assembled lead trail t0 ps h1 h2 h3 h4 h5⟩

theorem snp_normalizer_separator_behavior_witness :
    normalize_snps (.str ⟨[','] ++ ((['r', 's', '1'] : List Char) ++
        ([([',', ' '], ['r', 's', '1']), ([';'], ['r', 's', '2'])].map
          (fun q => q.1 ++ q.2)).flatten) ++ [' ']⟩) =
      .ok (((['r', 's', '1'] : List Char) ::
        [([',', ' '], ['r', 's', '1']), ([';'], ['r', 's', '2'])].map (fun q => q.2)).map
          (fun tk => (⟨tk⟩ : String))) ∧
    normalize_snps (.str " ,;+| ") =
      .error (.validationError "No SNPs provided after normalization.") ∧
    mat_normalize_snps (.str ⟨[','] ++ ((['r', 's', '1'] : List Char) ++
        ([([' ', ','], ['r', 's', '2'])].map (fun q => q.1 ++ q.2)).flatten) ++ ['\n']⟩) =
      .ok (((['r', 's', '1'] : List Char) ::
        [([' ', ','], ['r', 's', '2'])].map (fun q => q.2)).map (fun tk => (⟨tk⟩ : String))) :=
  ⟨snp_normalizer_separator_behavior.1 [','] [' '] ['r', 's', '1']
      [([',', ' '], ['r', 's', '1']), ([';'], ['r', 's', '2'])]
      (by decide) (by decide) (by decide) (by decide) (by decide),
    snp_normalizer_separator_behavior.2.1 " ,;+| " (by decide),
    snp_normalizer_separator_behavior.2.2 [','] ['\n'] ['r', 's', '1']
      [([' ', ','], ['r', 's', '2'])]
      (by decide) (by decide) (by decide) (by decide) (by decide)⟩

/-- In every `some` result of `_coerce_list_payload_to_matrix` that carries
row labels, the label list is exactly as long as the matrix. -/
theorem coerce_row_labels_length (val : List PyVal) (m : List (List PyVal))
    (rl cl : Option (List String))
    (h : coerce_list_payload val = some (m, rl, cl)) :
    ∀ l, rl = some l → l.length = m.length := by
  intro l hl
  unfold coerce_list_payload at h
  split at h
  · exact absurd h (by simp)
  · split at h
    · exact absurd h (by simp)
    · rename_i rows r0 rest
      split at h
      · dsimp only at h
        split at h
        · simp only [Option.some.injEq, Prod.mk.injEq] at h
          obtain ⟨hm, hrl, hcl⟩ := h
          rw [← hrl] at hl
          simp only [Option.some.injEq] at hl
          rw [← hl, ← hm]
          simp
        · exact absurd h (by simp)
      · dsimp only at h
        split at h
        · exact absurd h (by simp)
        · split at h
          · exact absurd h (by simp)
          · split at h
            · simp only [Option.some.injEq, Prod.mk.injEq] at h
              obtain ⟨hm, hrl, hcl⟩ := h
              rw [← hrl] at hl
              simp only [Option.some.injEq] at hl
              rw [← hl, ← hm]
              simp
            · simp only [Option.some.injEq, Prod.mk.injEq] at h
              obtain ⟨hm, hrl, hcl⟩ := h
              rw [← hrl] at hl
              exact absurd hl (by simp)

/-- The same label-length fact lifted through
`_try_extract_matrix_array`, which only ever returns coercion results. -/
theorem try_extract_row_labels_length (payload : PyVal) (m : List (List PyVal))
    (rl cl : Option (List String))
    (h : try_extract_matrix_array payload = some (m, rl, cl)) :
    ∀ l, rl = some l → l.length = m.length := by
  unfold try_extract_matrix_array at h
  split at h
  · split at h
    · exact absurd h (by simp)
    · exact coerce_row_labels_length _ _ _ _ h
  · split at h
    · exact coerce_row_labels_length _ _ _ _ h
    · split at h
      · exact coerce_row_labels_length _ _ _ _ h
      · exact absurd h (by simp)
  · exact absurd h (by simp)

/-- Every `ok` output of `parsers._parse_tsv_matrix` is square: as many
rows (and row labels) as columns. -/
theorem parsers_tsv_matrix_shape (text : String) (df : DFrame)
    (h : parsers_parse_tsv_matrix text = .ok df) :
    df.cells.length = df.columns.length ∧ df.index.length = df.columns.length := by
  unfold parsers_parse_tsv_matrix at h
  dsimp only at h
  split at h
  · exact absurd h (by simp)
  · split at h
    · exact absurd h (by simp)
    · rename_i c heq
      split at h
      · exact absurd h (by simp)
      · rename_i first colsRest hhdr
        split at h
        · exact absurd h (by simp)
        · split at h
          · exact absurd h (by simp)
          · rename_i hcu hsq
            rw [not_ne_iff] at hsq
            injection h with h
            rw [← h]
            simp [hsq]

/-- Every `ok` output of `parsers.parse_matrix` is square: as many rows
(and row labels) as columns, on the TSV-text path and the list path. -/
theorem parsers_matrix_shape (payload : PyVal) (df : DFrame)
    (h : parsers_parse_matrix payload = .ok df) :
    df.cells.length = df.columns.length ∧ df.index.length = df.columns.length := by
  unfold parsers_parse_matrix at h
  split at h
  · exact parsers_tsv_matrix_shape _ _ h
  · split at h
    · rename_i matrix rowLabels colLabels hextract
      dsimp only at h
      split at h
      · exact absurd h (by simp)
      · rename_i hsq
        rw [not_ne_iff] at hsq
        injection h with h
        rw [← h]
        cases colLabels with
        | some cl =>
          constructor
          · simpa using hsq
          · cases rowLabels with
            | some rlabs =>
              have := try_extract_row_labels_length payload matrix (some rlabs)
                (some cl) hextract rlabs rfl
              simpa [this] using hsq
            | none => simpa using hsq
        | none =>
          constructor
          · simpa using hsq
          · cases rowLabels with
            | some rlabs =>
              have := try_extract_row_labels_length payload matrix (some rlabs)
                none hextract rlabs rfl
              simpa [this] using hsq
            | none => simpa using hsq
    · split at h
      · exact absurd h (by simp)
      · exact absurd h (by simp)

/-- C4 counterexample: `parsing.parse_matrix`, also offered as a matrix
parser, has no squareness check: on a tab-separated input with one data
row and two columns it returns the 1-row 2-column table instead of
raising. -/
theorem parsing_parse_matrix_returns_non_square :
    ∃ fr : IdxFrame, parsing_parse_matrix "\ta\tb\nr1\t1\t2" = .ok fr ∧
      fr.cells.length ≠ fr.columns.length :=
  ⟨⟨none, ["r1"], ["a", "b"], [["1", "2"]]⟩, by decide, by decide⟩

/-- C4 (amended): `parsers.parse_matrix` raises on a row/column count
mismatch and never returns a non-square table — every `ok` result has as
many rows and row labels as columns, on both the TSV-text path
(`parsers._parse_tsv_matrix`) and the list-of-lists path.  (The third
function offered as a matrix parser, `parsing.parse_matrix`, performs no
such check — see the counterexample.) -/
theorem matrix_parser_square_guarantee :
    (∀ text df, parsers_parse_tsv_matrix text = .ok df →
        df.cells.length = df.columns.length ∧ df.index.length = df.columns.length) ∧
    (∀ payload df, parsers_parse_matrix payload = .ok df →
        df.cells.length = df.columns.length ∧ df.index.length = df.columns.length) :=
  ⟨parsers_tsv_matrix_shape, parsers_matrix_shape⟩

/-- C4 witness: the square guarantee applied to a concrete 2x2 TSV text
and a concrete labeled list-of-lists payload. -/
theorem matrix_parser_square_guarantee_witness :
    ((DFrame.mk ["A", "B"] ["A", "B"]
        [[toNumericStr "1", toNumericStr "2"],
         [toNumericStr "3", toNumericStr "4"]]).cells.length =
      (DFrame.mk ["A", "B"] ["A", "B"]
        [[toNumericStr "1", toNumericStr "2"],
         [toNumericStr "3", toNumericStr "4"]]).columns.length ∧
      (DFrame.mk ["A", "B"] ["A", "B"]
        [[toNumericStr "1", toNumericStr "2"],
         [toNumericStr "3", toNumericStr "4"]]).index.length =
      (DFrame.mk ["A", "B"] ["A", "B"]
        [[toNumericStr "1", toNumericStr "2"],
         [toNumericStr "3", toNumericStr "4"]]).columns.length) ∧
    ((DFrame.mk ["A"] ["A"] [[some 1]]).cells.length =
      (DFrame.mk ["A"] ["A"] [[some 1]]).columns.length ∧
      (DFrame.mk ["A"] ["A"] [[some 1]]).index.length =
      (DFrame.mk ["A"] ["A"] [[some 1]]).columns.length) :=
  ⟨matrix_parser_square_guarantee.1 "\tA\tB\nA\t1\t2\nB\t3\t4"
      (DFrame.mk ["A", "B"] ["A", "B"]
        [[toNumericStr "1", toNumericStr "2"],
         [toNumericStr "3", toNumericStr "4"]]) rfl,
   matrix_parser_square_guarantee.2
      (.arr [.arr [.str "id", .str "A"], .arr [.str "A", .num 1]])
      (DFrame.mk ["A"] ["A"] [[some 1]]) rfl⟩

theorem splitLinesCore_cons_ne (c : Char) (t : List Char)
    (hc1 : c ≠ '\n') (hc2 : c ≠ '\r') :
    splitLinesCore (c :: t) =
      match splitLinesCore t with
      | [] => [[c]]
      | h :: tl => (c :: h) :: tl := by
  rw [splitLinesCore.eq_def]
  split
  all_goals
    first
      | rfl
      | (rename_i heq
         exact List.noConfusion heq)
      | (rename_i heq
         injection heq with h1 h2
         first
           | exact absurd h1 hc1
           | exact absurd h1 hc2
           | (subst h1; subst h2; rfl))

theorem splitLinesCore_append_nl (a b : List Char)
    (ha : ∀ c ∈ a, c ≠ '\n' ∧ c ≠ '\r') (hb : b ≠ []) :
    splitLinesCore (a ++ '\n' :: b) = a :: splitLinesCore b := by
  induction a with
  | nil =>
    obtain ⟨d, t, rfl⟩ := List.exists_cons_of_ne_nil hb
    rfl
  | cons c a2 ih =>
    have hc := ha c (List.mem_cons_self c a2)
    rw [List.cons_append, splitLinesCore_cons_ne c _ hc.1 hc.2,
      ih (fun x hx => ha x (List.mem_cons_of_mem c hx))]

theorem splitLinesCore_single_nl (a : List Char)
    (ha : ∀ c ∈ a, c ≠ '\n' ∧ c ≠ '\r') :
    splitLinesCore (a ++ ['\n']) = [a] := by
  induction a with
  | nil => rfl
  | cons c a2 ih =>
    have hc := ha c (List.mem_cons_self c a2)
    rw [List.cons_append, splitLinesCore_cons_ne c _ hc.1 hc.2,
      ih (fun x hx => ha x (List.mem_cons_of_mem c hx))]

theorem splitLinesCore_blocks (ls : List (List Char))
    (h : ∀ l ∈ ls, ∀ c ∈ l, c ≠ '\n' ∧ c ≠ '\r') (hne : ls ≠ []) :
    splitLinesCore ((ls.map (fun l => l ++ ['\n'])).flatten) = ls := by
  induction ls with
  | nil => exact absurd rfl hne
  | cons x ls2 ih =>
    cases ls2 with
    | nil =>
      rw [List.map_cons, List.map_nil, List.flatten_cons, List.flatten_nil, List.append_nil]
      exact splitLinesCore_single_nl x (h x (List.mem_cons_self x []))
    | cons y ys =>
      have hflat : ((List.map (fun l => l ++ ['\n']) (y :: ys)).flatten) ≠ [] := by
        simp
      rw [List.map_cons, List.flatten_cons, List.append_assoc, List.singleton_append,
        splitLinesCore_append_nl x _ (h x (List.mem_cons_self x (y :: ys))) hflat,
        ih (fun l hl => h l (List.mem_cons_of_mem x hl)) (by simp)]

theorem digit_ne (c d : Char) (h : c.isDigit = true) (hd : d.isDigit = false) : c ≠ d := by
  intro heq
  rw [heq, hd] at h
  exact Bool.noConfusion h

theorem ne_beq_false (c d : Char) (h : c ≠ d) : (c == d) = false := by
  cases hc : c == d
  · rfl
  · exact absurd (eq_of_beq hc) h

theorem ws_false_parts (c : Char) (h : wsChar c = false) :
    c ≠ '\n' ∧ c ≠ '\r' ∧ (c == '\t') = false := by
  unfold wsChar at h
  simp only [Bool.or_eq_false_iff] at h
  obtain ⟨⟨⟨⟨⟨h1, h2⟩, h3⟩, h4⟩, h5⟩, h6⟩ := h
  refine ⟨fun heq => ?_, fun heq => ?_, h2⟩
  · rw [heq] at h3; exact absurd h3 (by decide)
  · rw [heq] at h4; exact absurd h4 (by decide)

theorem digit_ws_false (c : Char) (h : c.isDigit = true) : wsChar c = false := by
  unfold wsChar
  rw [ne_beq_false c ' ' (digit_ne c ' ' h (by decide)),
    ne_beq_false c '\t' (digit_ne c '\t' h (by decide)),
    ne_beq_false c '\n' (digit_ne c '\n' h (by decide)),
    ne_beq_false c '\r' (digit_ne c '\r' h (by decide)),
    ne_beq_false c '\u000b' (digit_ne c '\u000b' h (by decide)),
    ne_beq_false c '\u000c' (digit_ne c '\u000c' h (by decide))]
  rfl

theorem digit_eE_false (c : Char) (h : c.isDigit = true) :
    ((c == 'e') || (c == 'E')) = false := by
  rw [ne_beq_false c 'e' (digit_ne c 'e' h (by decide)),
    ne_beq_false c 'E' (digit_ne c 'E' h (by decide))]
  rfl

theorem renderCell_no_ws (cell : Bool × List Char × List Char)
    (hm : ∀ c ∈ cell.2.1, c.isDigit = true) (he : ∀ c ∈ cell.2.2, c.isDigit = true) :
    ∀ ch ∈ renderCell cell, wsChar ch = false := by
  intro ch hch
  unfold renderCell at hch
  rcases List.mem_append.mp hch with hL | hR
  · rcases List.mem_append.mp hL with hS | hMant
    · split at hS
      · simp only [List.mem_singleton] at hS
        rw [hS]; decide
      · exact absurd hS (List.not_mem_nil ch)
    · exact digit_ws_false ch (hm ch hMant)
  · simp only [List.mem_cons] at hR
    rcases hR with rfl | rfl | hEx
    · decide
    · decide
    · exact digit_ws_false ch (he ch hEx)

theorem stripL_nonempty_of_mem (l : List Char) (c : Char)
    (hc : c ∈ l) (hw : wsChar c = false) : (stripL l).isEmpty = false := by
  cases hsl : stripL l with
  | cons _ _ => rfl
  | nil =>
    exfalso
    have h2 : (l.dropWhile wsChar).reverse.dropWhile wsChar = [] := by
      have := congrArg List.reverse hsl
      simpa [stripL] using this
    have h3 : ∀ x ∈ l.dropWhile wsChar, wsChar x = true := by
      intro x hx
      exact List.dropWhile_eq_nil_iff.mp h2 x (List.mem_reverse.mpr hx)
    have h4 : ∀ x ∈ l, wsChar x = true := by
      intro x hx
      rw [← List.takeWhile_append_dropWhile (p := wsChar) (l := l)] at hx
      rcases List.mem_append.mp hx with h | h
      · exact List.mem_takeWhile_imp h
      · exact h3 x h
    rw [h4 c hc] at hw
    exact Bool.noConfusion hw

theorem splitOnPred_sep_cons (p : Char → Bool) (c : Char) (b : List Char)
    (hc : p c = true) : splitOnPred p (c :: b) = [] :: splitOnPred p b := by
  conv =>
    lhs
    unfold splitOnPred
  rw [if_pos hc]

theorem splitOnPred_ne_nil (p : Char → Bool) (l : List Char) : splitOnPred p l ≠ [] := by
  induction l with
  | nil => simp [splitOnPred]
  | cons c t ih =>
    unfold splitOnPred
    split
    · simp
    · split <;> simp

theorem splitOnPred_token_prepend (p : Char → Bool) (a : List Char) (c : Char)
    (b : List Char) (ha : ∀ x ∈ a, p x = false) (hc : p c = true) :
    splitOnPred p (a ++ c :: b) = a :: splitOnPred p b := by
  induction a with
  | nil =>
    rw [List.nil_append, splitOnPred_sep_cons p c b hc]
  | cons d a2 ih =>
    have hd : p d = false := ha d (List.mem_cons_self d a2)
    rw [List.cons_append]
    conv =>
      lhs
      unfold splitOnPred
    rw [if_neg (by simp [hd])]
    rw [ih (fun x hx => ha x (List.mem_cons_of_mem d hx))]

theorem splitOnPred_no_sep (p : Char → Bool) (l : List Char)
    (h : ∀ c ∈ l, p c = false) : splitOnPred p l = [l] := by
  induction l with
  | nil => rfl
  | cons c t ih =>
    have hc : p c = false := h c (List.mem_cons_self c t)
    unfold splitOnPred
    rw [if_neg (by simp [hc]), ih (fun x hx => h x (List.mem_cons_of_mem c hx))]

theorem splitOnChar_sep_cons (sep : Char) (b : List Char) :
    splitOnChar sep (sep :: b) = [] :: splitOnChar sep b := by
  conv =>
    lhs
    unfold splitOnChar
  rw [if_pos (by simp)]

theorem splitOnChar_no_sep (sep : Char) (l : List Char)
    (h : ∀ c ∈ l, (c == sep) = false) : splitOnChar sep l = [l] := by
  induction l with
  | nil => rfl
  | cons c t ih =>
    have hc : (c == sep) = false := h c (List.mem_cons_self c t)
    unfold splitOnChar
    rw [if_neg (by simp [hc]), ih (fun x hx => h x (List.mem_cons_of_mem c hx))]

theorem splitOnChar_tabJoin (ls : List (List Char))
    (h : ∀ l ∈ ls, ∀ c ∈ l, (c == '\t') = false) (hne : ls ≠ []) :
    splitOnChar '\t' (tabJoin ls) = ls := by
  induction ls with
  | nil => exact absurd rfl hne
  | cons x ls2 ih =>
    cases ls2 with
    | nil => exact splitOnChar_no_sep '\t' x (h x (List.mem_cons_self x []))
    | cons y ys =>
      have hx : ∀ c ∈ x, (c == '\t') = false := h x (List.mem_cons_self x (y :: ys))
      rw [show tabJoin (x :: y :: ys) = x ++ '\t' :: tabJoin (y :: ys) from rfl,
        splitOnChar_token_prepend '\t' x _ hx]
      rw [splitOnChar_sep_cons '\t' (tabJoin (y :: ys)),
        ih (fun l hl => h l (List.mem_cons_of_mem x hl)) (by simp)]
      simp

theorem tabJoin_mem (ls : List (List Char)) (l : List Char) (c : Char)
    (hl : l ∈ ls) (hc : c ∈ l) : c ∈ tabJoin ls := by
  induction ls with
  | nil => exact absurd hl (List.not_mem_nil l)
  | cons x ls2 ih =>
    cases ls2 with
    | nil =>
      simp only [List.mem_singleton] at hl
      rw [hl] at hc
      exact hc
    | cons y ys =>
      rw [show tabJoin (x :: y :: ys) = x ++ '\t' :: tabJoin (y :: ys) from rfl]
      rcases List.mem_cons.mp hl with rfl | hl2
      · exact List.mem_append.mpr (Or.inl hc)
      · exact List.mem_append.mpr (Or.inr (List.mem_cons_of_mem _ (ih hl2)))

theorem mem_zipWith {α β γ : Type} (f : α → β → γ) (as : List α) (bs : List β) (x : γ)
    (h : x ∈ List.zipWith f as bs) : ∃ a ∈ as, ∃ b ∈ bs, x = f a b := by
  induction as generalizing bs with
  | nil => rw [List.zipWith_nil_left] at h; exact absurd h (List.not_mem_nil x)
  | cons a as2 ih =>
    cases bs with
    | nil => rw [List.zipWith_nil_right] at h; exact absurd h (List.not_mem_nil x)
    | cons b bs2 =>
      rw [List.zipWith_cons_cons] at h
      rcases List.mem_cons.mp h with rfl | h2
      · exact ⟨a, List.mem_cons_self a as2, b, List.mem_cons_self b bs2, rfl⟩
      · obtain ⟨a2, ha2, b2, hb2, hx⟩ := ih bs2 h2
        exact ⟨a2, List.mem_cons_of_mem a ha2, b2, List.mem_cons_of_mem b hb2, hx⟩

theorem zipWith_congr_mem {α β γ : Type} (f g : α → β → γ) (as : List α) (bs : List β)
    (h : ∀ a ∈ as, ∀ b ∈ bs, f a b = g a b) :
    List.zipWith f as bs = List.zipWith g as bs := by
  induction as generalizing bs with
  | nil => rfl
  | cons a as2 ih =>
    cases bs with
    | nil => rfl
    | cons b bs2 =>
      rw [List.zipWith_cons_cons, List.zipWith_cons_cons,
        h a (List.mem_cons_self a as2) b (List.mem_cons_self b bs2),
        ih bs2 (fun x hx y hy =>
          h x (List.mem_cons_of_mem a hx) y (List.mem_cons_of_mem b hy))]

theorem zipWith_left_proj {α β : Type} (as : List α) (bs : List β)
    (h : as.length ≤ bs.length) :
    List.zipWith (fun a _ => a) as bs = as := by
  induction as generalizing bs with
  | nil => rfl
  | cons a as2 ih =>
    cases bs with
    | nil => exact absurd h (by simp)
    | cons b bs2 =>
      rw [List.zipWith_cons_cons, ih bs2 (by simpa using h)]

theorem zipWith_right_map {α β γ : Type} (g : β → γ) (as : List α) (bs : List β)
    (h : bs.length ≤ as.length) :
    List.zipWith (fun _ b => g b) as bs = bs.map g := by
  induction as generalizing bs with
  | nil =>
    cases bs with
    | nil => rfl
    | cons b bs2 => exact absurd h (by simp)
  | cons a as2 ih =>
    cases bs with
    | nil => rfl
    | cons b bs2 =>
      rw [List.zipWith_cons_cons, List.map_cons, ih bs2 (by simpa using h)]

theorem enumFrom_rename_fixed (ls : List String) (h : ∀ l ∈ ls, l ≠ "") :
    ∀ n : ℕ, (List.enumFrom n ls).map
      (fun p => if p.2 == "" then "Unnamed: " ++ toString (0 + p.1) else p.2) = ls := by
  induction ls with
  | nil => intro n; rfl
  | cons x ls2 ih =>
    intro n
    rw [List.enumFrom_cons, List.map_cons]
    rw [if_neg (fun hb => h x (List.mem_cons_self x ls2) (eq_of_beq hb))]
    rw [ih (fun l hl => h l (List.mem_cons_of_mem x hl)) (n + 1)]

theorem renameUnnamed_cons_blank (ls : List String) (h : ∀ l ∈ ls, l ≠ "") :
    renameUnnamedFrom 0 ("" :: ls) = "Unnamed: 0" :: ls := by
  unfold renameUnnamedFrom
  rw [show ("" :: ls).enum = (0, "") :: List.enumFrom 1 ls from rfl, List.map_cons]
  rw [if_pos (by decide)]
  rw [enumFrom_rename_fixed ls h 1]
  rfl

theorem foldl_opt_some {α : Type} (f : Option α → Char → Option α)
    (hf : ∀ v c, c.isDigit = true → ∃ w, f (some v) c = some w) :
    ∀ (l : List Char), (∀ c ∈ l, c.isDigit = true) → ∀ v : α,
      ∃ n, List.foldl f (some v) l = some n := by
  intro l
  induction l with
  | nil => intro _ v; exact ⟨v, rfl⟩
  | cons c t ih =>
    intro hd v
    obtain ⟨w, hw⟩ := hf v c (hd c (List.mem_cons_self c t))
    rw [List.foldl_cons, hw]
    exact ih (fun x hx => hd x (List.mem_cons_of_mem c hx)) w

theorem digitsVal_some (l : List Char) (hd : ∀ c ∈ l, c.isDigit = true) :
    ∃ n, digitsVal? l = some n := by
  unfold digitsVal?
  refine foldl_opt_some _ (fun v c hc => ⟨10 * v + (c.toNat - 48), ?_⟩) l hd 0
  dsimp only
  rw [if_pos hc]

theorem parseMantissa_digits (mant : List Char) (hne : mant ≠ [])
    (hd : ∀ c ∈ mant, c.isDigit = true) (n : ℕ) (hn : digitsVal? mant = some n) :
    parseMantissa? mant = some (n : ℚ) := by
  unfold parseMantissa?
  rw [splitOnChar_no_sep '.' mant
    (fun c hc => ne_beq_false c '.' (digit_ne c '.' (hd c hc) (by decide)))]
  dsimp only
  rw [if_neg (fun hb => hne (List.isEmpty_iff.mp hb)), hn]
  rfl

theorem parseExp_neg_digits (ex : List Char) (hne : ex ≠ [])
    (hd : ∀ c ∈ ex, c.isDigit = true) (k : ℕ) (hk : digitsVal? ex = some k) :
    parseExp? ('-' :: ex) = some (-(k : ℤ)) := by
  show (if ex.isEmpty then none
    else Option.map (fun n : ℤ => if true then -n else n)
      (do
        let a ← digitsVal? ex
        pure ((a : ℤ)))) = some (-(k : ℤ))
  rw [if_neg (fun hb => hne (List.isEmpty_iff.mp hb)), hk]
  rfl

theorem signMatch_fallthrough (motive : List Char → Type) (c0 : Char) (t : List Char)
    (h1 : c0 ≠ '+') (h2 : c0 ≠ '-')
    (f1 : (t2 : List Char) → motive ('+' :: t2))
    (f2 : (t2 : List Char) → motive ('-' :: t2))
    (f3 : (x : List Char) → motive x) :
    parseExp?.match_1 motive (c0 :: t) f1 f2 f3 = f3 (c0 :: t) := by
  unfold parseExp?.match_1
  dsimp only
  rw [dif_neg h1, dif_neg h2]

theorem signMatch_neg (motive : List Char → Type) (t : List Char)
    (f1 : (t2 : List Char) → motive ('+' :: t2))
    (f2 : (t2 : List Char) → motive ('-' :: t2))
    (f3 : (x : List Char) → motive x) :
    parseExp?.match_1 motive ('-' :: t) f1 f2 f3 = f2 t := by
  rfl

theorem parseFloat_render (sgn : Bool) (mant ex : List Char)
    (hm : mant ≠ []) (hmd : ∀ c ∈ mant, c.isDigit = true)
    (he : ex ≠ []) (hed : ∀ c ∈ ex, c.isDigit = true) :
    parseFloat? (renderCell (sgn, mant, ex)) = some (cellValue (sgn, mant, ex)) := by
  obtain ⟨n, hn⟩ := digitsVal_some mant hmd
  obtain ⟨k, hk⟩ := digitsVal_some ex hed
  have hmant := parseMantissa_digits mant hm hmd n hn
  have hexp := parseExp_neg_digits ex he hed k hk
  have hnw : ∀ c ∈ renderCell (sgn, mant, ex), wsChar c = false :=
    renderCell_no_ws (sgn, mant, ex) hmd hed
  have hsplit : splitOnPred (fun c => c == 'e' || c == 'E') (mant ++ 'e' :: '-' :: ex) =
      [mant, '-' :: ex] := by
    rw [splitOnPred_token_prepend _ mant 'e' _
      (fun c hc => digit_eE_false c (hmd c hc)) (by decide)]
    rw [splitOnPred_no_sep _ ('-' :: ex) (by
      intro c hc
      rcases List.mem_cons.mp hc with rfl | hc2
      · decide
      · exact digit_eE_false c (hed c hc2))]
  cases sgn with
  | true =>
    rw [show renderCell (true, mant, ex) = '-' :: (mant ++ 'e' :: '-' :: ex) from rfl] at hnw ⊢
    unfold parseFloat?
    dsimp only
    rw [stripL_of_no_ws _ hnw]
    rw [signMatch_neg]
    dsimp only
    rw [hsplit]
    dsimp only
    rw [hmant, hexp]
    dsimp only
    simp only [reduceIte]
    unfold cellValue
    rw [hn, hk]
    simp only [Option.getD_some, reduceIte]
    rw [neg_one_mul]
  | false =>
    rw [show renderCell (false, mant, ex) = (mant ++ 'e' :: '-' :: ex) from rfl] at hnw ⊢
    obtain ⟨c0, mrest, rfl⟩ := List.exists_cons_of_ne_nil hm
    have hc0 : c0.isDigit = true := hmd c0 (List.mem_cons_self c0 mrest)
    rw [List.cons_append] at hnw hsplit ⊢
    unfold parseFloat?
    dsimp only
    rw [stripL_of_no_ws _ hnw]
    rw [signMatch_fallthrough _ c0 _ (digit_ne c0 '+' hc0 (by decide))
      (digit_ne c0 '-' hc0 (by decide))]
    dsimp only
    rw [hsplit]
    dsimp only
    rw [hmant, hexp]
    dsimp only
    unfold cellValue
    rw [hn, hk]
    simp

theorem mem_tabJoin_cases (ls : List (List Char)) (c : Char) (hc : c ∈ tabJoin ls) :
    c = '\t' ∨ ∃ l ∈ ls, c ∈ l := by
  induction ls with
  | nil => exact absurd hc (List.not_mem_nil c)
  | cons x ls2 ih =>
    cases ls2 with
    | nil => exact Or.inr ⟨x, List.mem_cons_self x [], hc⟩
    | cons y ys =>
      rw [show tabJoin (x :: y :: ys) = x ++ '\t' :: tabJoin (y :: ys) from rfl] at hc
      rcases List.mem_append.mp hc with h | h
      · exact Or.inr ⟨x, List.mem_cons_self x (y :: ys), h⟩
      · rcases List.mem_cons.mp h with rfl | h2
        · exact Or.inl rfl
        · rcases ih h2 with h3 | ⟨l, hl, hcl⟩
          · exact Or.inl h3
          · exact Or.inr ⟨l, List.mem_cons_of_mem x hl, hcl⟩

theorem zip_blocks_eq (labels : List String)
    (cells : List (List (Bool × List Char × List Char))) :
    List.zipWith (fun lb row => lb.data ++ '\t' :: tabJoin (row.map renderCell) ++ ['\n'])
      labels cells =
    (List.zipWith (fun lb row => lb.data ++ '\t' :: tabJoin (row.map renderCell))
      labels cells).map (fun l => l ++ ['\n']) := by
  induction labels generalizing cells with
  | nil => rfl
  | cons lb labels2 ih =>
    cases cells with
    | nil => rfl
    | cons row cells2 =>
      rw [List.zipWith_cons_cons, List.zipWith_cons_cons, List.map_cons, ih cells2]

theorem serialize_lines (labels : List String)
    (cells : List (List (Bool × List Char × List Char)))
    (hlnz : labels ≠ []) (hcl : cells.length = labels.length)
    (hlab : ∀ lb ∈ labels, ∀ c ∈ lb.data, wsChar c = false)
    (hcells : ∀ row ∈ cells, ∀ cell ∈ row,
      (∀ c ∈ cell.2.1, c.isDigit = true) ∧ (∀ c ∈ cell.2.2, c.isDigit = true)) :
    pySplitLines (specSerializeMatrix labels cells).data =
      ('\t' :: tabJoin (labels.map (fun lb => lb.data))) ::
        List.zipWith (fun lb row => lb.data ++ '\t' :: tabJoin (row.map renderCell))
          labels cells := by
  have hcnz : cells ≠ [] := by
    intro h
    rw [h] at hcl
    exact hlnz (List.length_eq_zero.mp hcl.symm)
  have hblock : ∀ l ∈ List.zipWith
      (fun lb row => lb.data ++ '\t' :: tabJoin (row.map renderCell)) labels cells,
      ∀ c ∈ l, c ≠ '\n' ∧ c ≠ '\r' := by
    intro l hl c hc
    obtain ⟨lb, hlb, row, hrow, rfl⟩ := mem_zipWith _ labels cells l hl
    rcases List.mem_append.mp hc with h | h
    · have hp := ws_false_parts c (hlab lb hlb c h)
      exact ⟨hp.1, hp.2.1⟩
    · rcases List.mem_cons.mp h with rfl | h2
      · exact ⟨by decide, by decide⟩
      · rcases mem_tabJoin_cases _ c h2 with rfl | ⟨l2, hl2, hcl2⟩
        · exact ⟨by decide, by decide⟩
        · obtain ⟨cell, hcell, rfl⟩ := List.mem_map.mp hl2
          have hp := ws_false_parts c (renderCell_no_ws cell
            (hcells row hrow cell hcell).1 (hcells row hrow cell hcell).2 c hcl2)
          exact ⟨hp.1, hp.2.1⟩
  have hznz : List.zipWith (fun lb row => lb.data ++ '\t' :: tabJoin (row.map renderCell))
      labels cells ≠ [] := by
    obtain ⟨lb0, lrest, rfl⟩ := List.exists_cons_of_ne_nil hlnz
    obtain ⟨r0, crest, rfl⟩ := List.exists_cons_of_ne_nil hcnz
    simp
  have hhead : ∀ c ∈ '\t' :: tabJoin (labels.map (fun lb => lb.data)),
      c ≠ '\n' ∧ c ≠ '\r' := by
    intro c hc
    rcases List.mem_cons.mp hc with rfl | h2
    · exact ⟨by decide, by decide⟩
    · rcases mem_tabJoin_cases _ c h2 with rfl | ⟨l2, hl2, hcl2⟩
      · exact ⟨by decide, by decide⟩
      · obtain ⟨lb, hlb, rfl⟩ := List.mem_map.mp hl2
        have hp := ws_false_parts c (hlab lb hlb c hcl2)
        exact ⟨hp.1, hp.2.1⟩
  have hbody_ne : ((List.zipWith
      (fun lb row => lb.data ++ '\t' :: tabJoin (row.map renderCell)) labels cells).map
        (fun l => l ++ ['\n'])).flatten ≠ [] := by
    obtain ⟨z0, zrest, hz⟩ := List.exists_cons_of_ne_nil hznz
    rw [hz]
    simp
  rw [show (specSerializeMatrix labels cells).data =
    ('\t' :: tabJoin (labels.map (fun lb => lb.data))) ++ '\n' ::
      (List.zipWith (fun lb row => lb.data ++ '\t' :: tabJoin (row.map renderCell) ++ ['\n'])
        labels cells).flatten from rfl]
  rw [zip_blocks_eq labels cells]
  unfold pySplitLines
  rw [if_neg (by simp)]
  rw [splitLinesCore_append_nl _ _ hhead hbody_ne]
  rw [splitLinesCore_blocks _ hblock hznz]

theorem renderCell_tab_false (cell : Bool × List Char × List Char)
    (hm : ∀ c ∈ cell.2.1, c.isDigit = true) (he : ∀ c ∈ cell.2.2, c.isDigit = true) :
    ∀ c ∈ renderCell cell, (c == '\t') = false :=
  fun c hc => (ws_false_parts c (renderCell_no_ws cell hm he c hc)).2.2

theorem splitTabs_header (labels : List String)
    (hlab : ∀ lb ∈ labels, ∀ c ∈ lb.data, (c == '\t') = false) (hne : labels ≠ []) :
    splitTabs ('\t' :: tabJoin (labels.map (fun lb => lb.data))) = "" :: labels := by
  unfold splitTabs
  rw [splitOnChar_sep_cons]
  rw [splitOnChar_tabJoin (labels.map (fun lb => lb.data))
    (by
      intro l hl c hc
      obtain ⟨lb, hlb, rfl⟩ := List.mem_map.mp hl
      exact hlab lb hlb c hc)
    (by simp [hne])]
  rw [List.map_cons, List.map_map]
  show ("" :: labels.map (fun lb => lb)) = "" :: labels
  rw [List.map_id']

theorem splitTabs_bodyline (lb : String) (row : List (Bool × List Char × List Char))
    (hlb : ∀ c ∈ lb.data, (c == '\t') = false)
    (hrow : row ≠ [])
    (hcells : ∀ cell ∈ row,
      (∀ c ∈ cell.2.1, c.isDigit = true) ∧ (∀ c ∈ cell.2.2, c.isDigit = true)) :
    splitTabs (lb.data ++ '\t' :: tabJoin (row.map renderCell)) =
      lb :: row.map (fun c => (⟨renderCell c⟩ : String)) := by
  unfold splitTabs
  rw [splitOnChar_token_prepend '\t' lb.data _ hlb]
  rw [splitOnChar_sep_cons]
  rw [splitOnChar_tabJoin (row.map renderCell)
    (by
      intro l hl c hc
      obtain ⟨cell, hcell, rfl⟩ := List.mem_map.mp hl
      exact renderCell_tab_false cell (hcells cell hcell).1 (hcells cell hcell).2 c hc)
    (by simp [hrow])]
  simp only [List.headD_cons, List.tail_cons, List.append_nil, List.map_cons, List.map_map]
  show (lb :: row.map (fun c => (⟨renderCell c⟩ : String))) = _
  rfl

theorem countsGet_countsSet_ne (d : List (String × Nat)) (k k2 : String) (v : Nat)
    (h : k2 ≠ k) : countsGet (countsSet d k v) k2 = countsGet d k2 := by
  have hkk : (k == k2) = false := by
    cases hc : k == k2
    · rfl
    · exact absurd (eq_of_beq hc).symm h
  induction d with
  | nil =>
    simp [countsSet, countsGet, List.find?, hkk]
  | cons p rest ih =>
    by_cases hp : (p.1 == k) = true
    · rw [show countsSet (p :: rest) k v = (k, v) :: rest from by
        unfold countsSet; rw [if_pos hp]]
      have hp2 : (p.1 == k2) = false := by
        rw [eq_of_beq hp]
        exact hkk
      unfold countsGet
      rw [List.find?_cons_of_neg _ (by simp [hkk]), List.find?_cons_of_neg _ (by simp [hp2])]
    · rw [show countsSet (p :: rest) k v = p :: countsSet rest k v from by
        conv =>
          lhs
          unfold countsSet
        rw [if_neg hp]]
      by_cases hp2 : (p.1 == k2) = true
      · unfold countsGet
        rw [List.find?_cons_of_pos _ (by simp [hp2]), List.find?_cons_of_pos _ (by simp [hp2])]
      · unfold countsGet at ih ⊢
        rw [List.find?_cons_of_neg _ (by simp [hp2]), List.find?_cons_of_neg _ (by simp [hp2])]
        exact ih

theorem dedupGo_fresh (fuel : Nat) (counts : List (String × Nat)) (col : String)
    (h : countsGet counts col = 0) : dedupGo fuel counts col = (col, counts) := by
  unfold dedupGo
  rw [h]
  rfl

theorem dedupAux_fresh (l : List String) :
    ∀ counts, (∀ c ∈ l, countsGet counts c = 0) → l.Nodup → dedupAux counts l = l := by
  induction l with
  | nil => intro counts _ _; rfl
  | cons col rest ih =>
    intro counts hfresh hnd
    have hcol : countsGet counts col = 0 := hfresh col (List.mem_cons_self col rest)
    have hnd2 := List.nodup_cons.mp hnd
    unfold dedupAux
    rw [dedupGo_fresh _ _ _ hcol]
    dsimp only
    rw [ih (countsSet counts col (countsGet counts col + 1))
      (fun c hc => by
        have hne : c ≠ col := fun heq => hnd2.1 (heq ▸ hc)
        rw [countsGet_countsSet_ne _ _ _ _ hne]
        exact hfresh c (List.mem_cons_of_mem col hc))
      hnd2.2]

theorem dedupNames_nodup (l : List String) (h : l.Nodup) : dedupNames l = l :=
  dedupAux_fresh l [] (fun c _ => rfl) h


theorem readCsv_serialized (labels : List String)
    (cells : List (List (Bool × List Char × List Char)))
    (hlnz : labels ≠ []) (hcl : cells.length = labels.length)
    (hrows : ∀ row ∈ cells, row.length = labels.length)
    (hlab : ∀ lb ∈ labels, lb.data ≠ [] ∧ ∀ c ∈ lb.data, wsChar c = false)
    (hnm : ¬ "Unnamed: 0" ∈ labels) (hnodup : labels.Nodup)
    (hcells : ∀ row ∈ cells, ∀ cell ∈ row,
      (∀ c ∈ cell.2.1, c.isDigit = true) ∧ (∀ c ∈ cell.2.2, c.isDigit = true)) :
    readCsvTab (('\t' :: tabJoin (labels.map (fun lb => lb.data))) ::
        List.zipWith (fun lb row => lb.data ++ '\t' :: tabJoin (row.map renderCell))
          labels cells) =
      .ok ⟨"Unnamed: 0" :: labels,
        List.zipWith (fun lb row => lb :: row.map (fun c => (⟨renderCell c⟩ : String)))
          labels cells⟩ := by
  have htab : ∀ lb ∈ labels, ∀ c ∈ lb.data, (c == '\t') = false :=
    fun lb hlb c hc => (ws_false_parts c ((hlab lb hlb).2 c hc)).2.2
  have hrownz : ∀ row ∈ cells, row ≠ [] := by
    intro row hrow h
    have hlen := hrows row hrow
    rw [h] at hlen
    exact hlnz (List.length_eq_zero.mp hlen.symm)
  have hmapz : (List.zipWith (fun lb row => lb.data ++ '\t' :: tabJoin (row.map renderCell))
      labels cells).map splitTabs =
      List.zipWith (fun lb row => lb :: row.map (fun c => (⟨renderCell c⟩ : String)))
        labels cells := by
    rw [List.map_zipWith]
    exact zipWith_congr_mem _ _ labels cells (fun lb hlb row hrow =>
      splitTabs_bodyline lb row (htab lb hlb) (hrownz row hrow) (hcells row hrow))
  unfold readCsvTab
  rw [List.map_cons, splitTabs_header labels htab hlnz, hmapz]
  dsimp only
  rw [renameUnnamed_cons_blank labels (fun lb hlb h => (hlab lb hlb).1 (by rw [h]))]
  rw [dedupNames_nodup _ (List.nodup_cons.mpr ⟨hnm, hnodup⟩)]
  have hany : (List.zipWith (fun lb row => lb :: row.map (fun c => (⟨renderCell c⟩ : String)))
      labels cells).any (fun r => ("Unnamed: 0" :: labels).length < r.length) = false := by
    rw [List.any_eq_false]
    intro r hr
    obtain ⟨lb, hlb, row, hrow, rfl⟩ := mem_zipWith _ labels cells r hr
    simp [hrows row hrow]
  rw [if_neg (by intro hh; rw [hany] at hh; exact Bool.noConfusion hh)]
  have hpad : (List.zipWith (fun lb row => lb :: row.map (fun c => (⟨renderCell c⟩ : String)))
      labels cells).map
        (fun r => r ++ List.replicate (("Unnamed: 0" :: labels).length - r.length) "") =
      List.zipWith (fun lb row => lb :: row.map (fun c => (⟨renderCell c⟩ : String)))
        labels cells := by
    rw [List.map_zipWith]
    exact zipWith_congr_mem _ _ labels cells (fun lb hlb row hrow => by
      simp [hrows row hrow])
  rw [hpad]

/-- C5: for every square numeric matrix with labelled rows and columns
(pairwise-distinct non-blank tab-free labels, none equal to the reserved
pandas name `Unnamed: 0` — with repeated labels `read_csv`'s mandatory
`dedup_names` mangling would rename the later duplicates — and cells
given as signed decimal digit strings with a negative power-of-ten
exponent), serializing it to tab-delimited text with
a leading-empty-cell header row and one label-led row per line, then
parsing it back with `parsers._parse_tsv_matrix`, yields a table whose row
and column labels are the original labels in order and whose cells are
numerically equal to the original values. -/
theorem matrix_serialization_roundtrip :
    ∀ (labels : List String) (cells : List (List (Bool × List Char × List Char))),
      labels ≠ [] →
      cells.length = labels.length →
      (∀ row ∈ cells, row.length = labels.length) →
      (∀ lb ∈ labels, lb.data ≠ [] ∧ ∀ c ∈ lb.data, wsChar c = false) →
      labels.contains "Unnamed: 0" = false →
      labels.Nodup →
      (∀ row ∈ cells, ∀ cell ∈ row,
        (cell.2.1 ≠ [] ∧ ∀ c ∈ cell.2.1, c.isDigit = true) ∧
        (cell.2.2 ≠ [] ∧ ∀ c ∈ cell.2.2, c.isDigit = true)) →
      parsers_parse_tsv_matrix (specSerializeMatrix labels cells) =
        .ok ⟨labels, labels, cells.map (fun r => r.map (fun c => some (cellValue c)))⟩ := by
  intro labels cells hlnz hcl hrows hlab huni hnodup hcells
  have hnm : ¬ "Unnamed: 0" ∈ labels := by simpa using huni
  have hcells2 : ∀ row ∈ cells, ∀ cell ∈ row,
      (∀ c ∈ cell.2.1, c.isDigit = true) ∧ (∀ c ∈ cell.2.2, c.isDigit = true) :=
    fun row hrow cell hcell =>
      ⟨(hcells row hrow cell hcell).1.2, (hcells row hrow cell hcell).2.2⟩
  have hfilter : ∀ ln ∈ ('\t' :: tabJoin (labels.map (fun lb => lb.data))) ::
      List.zipWith (fun lb row => lb.data ++ '\t' :: tabJoin (row.map renderCell))
        labels cells,
      (!(stripL ln).isEmpty) = true := by
    intro ln hln
    rcases List.mem_cons.mp hln with rfl | h2
    · obtain ⟨lb0, lrest, rfl⟩ := List.exists_cons_of_ne_nil hlnz
      obtain ⟨c0, drest, hd⟩ :=
        List.exists_cons_of_ne_nil (hlab lb0 (List.mem_cons_self lb0 lrest)).1
      have hc0ws : wsChar c0 = false :=
        (hlab lb0 (List.mem_cons_self lb0 lrest)).2 c0
          (by rw [hd]; exact List.mem_cons_self c0 drest)
      have hmem : c0 ∈ '\t' :: tabJoin ((lb0 :: lrest).map (fun lb => lb.data)) := by
        apply List.mem_cons_of_mem
        apply tabJoin_mem _ lb0.data c0
        · exact List.mem_map_of_mem _ (List.mem_cons_self lb0 lrest)
        · rw [hd]; exact List.mem_cons_self c0 drest
      rw [stripL_nonempty_of_mem _ c0 hmem hc0ws]
      rfl
    · obtain ⟨lb, hlb, row, hrow, rfl⟩ := mem_zipWith _ labels cells ln h2
      obtain ⟨c0, drest, hd⟩ := List.exists_cons_of_ne_nil (hlab lb hlb).1
      have hc0ws : wsChar c0 = false :=
        (hlab lb hlb).2 c0 (by rw [hd]; exact List.mem_cons_self c0 drest)
      have hmem : c0 ∈ lb.data ++ '\t' :: tabJoin (row.map renderCell) :=
        List.mem_append.mpr (Or.inl (by rw [hd]; exact List.mem_cons_self c0 drest))
      rw [stripL_nonempty_of_mem _ c0 hmem hc0ws]
      rfl
  unfold parsers_parse_tsv_matrix
  dsimp only
  rw [serialize_lines labels cells hlnz hcl (fun lb hlb => (hlab lb hlb).2) hcells2]
  rw [List.filter_eq_self.mpr hfilter]
  rw [if_neg (by simp)]
  rw [readCsv_serialized labels cells hlnz hcl hrows hlab hnm hnodup hcells2]
  dsimp only
  rw [if_neg (by intro hh; rw [huni] at hh; exact Bool.noConfusion hh)]
  have hlen : (List.zipWith
      (fun lb row => lb :: row.map (fun c => (⟨renderCell c⟩ : String)))
      labels cells).length = labels.length := by
    rw [List.length_zipWith, hcl, Nat.min_self]
  rw [if_neg (not_ne_iff.mpr hlen)]
  have hidx : (List.zipWith
      (fun lb row => lb :: row.map (fun c => (⟨renderCell c⟩ : String)))
      labels cells).map (fun r => r.headD "") = labels := by
    rw [List.map_zipWith]
    rw [show (fun (lb : String) (row : List (Bool × List Char × List Char)) =>
      ((lb :: row.map (fun c => (⟨renderCell c⟩ : String))).headD "")) =
      (fun (lb : String) (_ : List (Bool × List Char × List Char)) => lb) from rfl]
    exact zipWith_left_proj labels cells (le_of_eq hcl.symm)
  have hcellsmap : (List.zipWith
      (fun lb row => lb :: row.map (fun c => (⟨renderCell c⟩ : String)))
      labels cells).map (fun r => r.tail.map toNumericStr) =
      cells.map (fun r => r.map (fun c => some (cellValue c))) := by
    rw [List.map_zipWith]
    rw [show (fun (lb : String) (row : List (Bool × List Char × List Char)) =>
      ((lb :: row.map (fun c => (⟨renderCell c⟩ : String))).tail.map toNumericStr)) =
      (fun (_ : String) (row : List (Bool × List Char × List Char)) =>
        (row.map (fun c => (⟨renderCell c⟩ : String))).map toNumericStr) from rfl]
    rw [zipWith_right_map _ labels cells (le_of_eq hcl)]
    apply List.map_congr_left
    intro row hrow
    rw [List.map_map]
    apply List.map_congr_left
    intro cell hcell
    show toNumericStr ⟨renderCell cell⟩ = some (cellValue cell)
    have h1 := (hcells row hrow cell hcell).1
    have h2 := (hcells row hrow cell hcell).2
    exact parseFloat_render cell.1 cell.2.1 cell.2.2 h1.1 h1.2 h2.1 h2.2
  rw [hidx, hcellsmap]

/-- C5 witness: the round-trip equation applied to a concrete 2x2 labelled
matrix holding 0.1, -2.5, 0.00 and 7e0. -/
theorem matrix_serialization_roundtrip_witness :
    parsers_parse_tsv_matrix (specSerializeMatrix ["A", "B"]
        [[(false, ['1'], ['1']), (true, ['2', '5'], ['1'])],
         [(false, ['0'], ['2']), (false, ['7'], ['0'])]]) =
      .ok ⟨["A", "B"], ["A", "B"],
        [[some (cellValue (false, ['1'], ['1'])), some (cellValue (true, ['2', '5'], ['1']))],
         [some (cellValue (false, ['0'], ['2'])), some (cellValue (false, ['7'], ['0']))]]⟩ :=
  matrix_serialization_roundtrip ["A", "B"]
    [[(false, ['1'], ['1']), (true, ['2', '5'], ['1'])],
     [(false, ['0'], ['2']), (false, ['7'], ['0'])]]
    (by decide) (by decide) (by decide) (by decide) (by decide) (by decide) (by decide)
